import Mathlib

/-!
A shallow embedding, in Lean 4, of the core comparison logic of the
Dicom-Compare repository (package `dicom_compare`), together with theorems
settling claims C1-C10 of its specification.

Embedding conventions:
* Python floats are modelled as exact rationals; `numpy` integer histogram
  counts as integers.
* Python dicts are modelled as association lists with Python's dict
  semantics: inserting an existing key overwrites the value in place
  (keeping the key's position), inserting a new key appends; iteration
  follows the list order.
* Fallible operations (pixel decoding raising `PixelMatchingError`,
  numeric coercion raising `ValueError`) are modelled with `Except Unit`.
* Since pixel decoding is an external effect (pydicom reading a file), a
  `DicomInstance` carries the outcome that `create_pixel_hash` and
  `create_pixel_fingerprint` would produce for its file: the code computes
  these deterministically from the file, so the same instance always
  yields the same result within a run.
* The Pearson correlation test of `fingerprints_match` compares the
  correlation against 0.999.  The correlation itself is irrational (a
  quotient by a square root), so the comparison is embedded by its exact
  algebraic equivalent over the covariance sums: for positive variances,
  corr >= 999/1000 iff the covariance sum is positive and its square times
  10^6 is at least 998001 times the product of the variance sums.  NaN
  (numpy yields NaN when a histogram has zero variance) is the zero
  variance case.
-/

/-! ## Python tag values

DICOM tag values as the comparator sees them: integers, floats, strings,
lists of values, or a malformed value on which numeric coercion raises.
-/

/-- A scalar element of a multi-valued DICOM tag. -/
inductive SVal where
  | int (z : ℤ)
  | flt (q : ℚ)
  | str (s : String)
  | bad
deriving DecidableEq, Repr

inductive Val where
  | int (z : ℤ)
  | flt (q : ℚ)
  | str (s : String)
  | arr (xs : List SVal)
  | bad
deriving DecidableEq, Repr

/-- Python runtime types, for `type(a) != type(b)` checks. -/
inductive VType where
  | tInt | tFlt | tStr | tArr | tBad
deriving DecidableEq, Repr

def Val.vtype : Val → VType
  | .int _ => .tInt
  | .flt _ => .tFlt
  | .str _ => .tStr
  | .arr _ => .tArr
  | .bad => .tBad

/-- Python `==` on scalar values: numbers compare numerically across
int/float. -/
def sEq : SVal → SVal → Bool
  | .int a, .int b => a = b
  | .int a, .flt b => (a : ℚ) = b
  | .flt a, .int b => a = (b : ℚ)
  | .flt a, .flt b => a = b
  | .str a, .str b => a = b
  | .bad, .bad => true
  | _, _ => false

/-- Python `==` on tag values: numbers compare numerically across
int/float, lists compare elementwise, different kinds are unequal. -/
def pyEq : Val → Val → Bool
  | .int a, .int b => a = b
  | .int a, .flt b => (a : ℚ) = b
  | .flt a, .int b => a = (b : ℚ)
  | .flt a, .flt b => a = b
  | .str a, .str b => a = b
  | .arr a, .arr b => a.length = b.length && (List.zipWith sEq a b).all id
  | .bad, .bad => true
  | _, _ => false

/-- Python truthiness of a tag value. -/
def truthy : Val → Bool
  | .int z => z ≠ 0
  | .flt q => q ≠ 0
  | .str s => s ≠ ""
  | .arr xs => ¬ xs.isEmpty
  | .bad => true

/-- Python `float(x)` on a scalar: numbers coerce, anything else raises.
pydicom decodes DS/IS attribute values to numeric types, so a numeric tag
is `.flt`/`.int` here; `.str` and `.bad` stand for malformed values on
which the coercion raises. -/
def sFloat : SVal → Except Unit ℚ
  | .int z => .ok (z : ℚ)
  | .flt q => .ok q
  | _ => .error ()

/-- Python `float(x)`: numbers coerce, anything else raises. -/
def pyFloat : Val → Except Unit ℚ
  | .int z => .ok (z : ℚ)
  | .flt q => .ok q
  | _ => .error ()

/-- Python `len(x)`: defined on lists, raises elsewhere. -/
def pyLen : Val → Except Unit ℕ
  | .arr xs => .ok xs.length
  | _ => .error ()

def sStr : SVal → String
  | .int z => toString z
  | .flt q => toString q
  | .str s => s
  | .bad => "<unprintable>"

/-- Python `str(x)` / f-string default formatting, as an injective
stand-in rendering. -/
def pyStr : Val → String
  | .int z => toString z
  | .flt q => toString q
  | .str s => s
  | .arr xs => "[" ++ String.intercalate ", " (xs.map sStr) ++ "]"
  | .bad => "<unprintable>"

/-- Stand-in for Python's fixed-point formatting `%.df` of a float: the
rational scaled by `10^d` and rounded to the nearest integer, rendered in
decimal.  Two values format equal iff they round to the same `10^-d`
grid point, which is the property the key strings rely on. -/
def fmtFixed (d : ℕ) (q : ℚ) : String :=
  toString (round (q * (10 : ℚ) ^ d))

/-! ## Association lists with Python dict semantics -/

def lookupA {α : Type} : List (String × α) → String → Option α
  | [], _ => none
  | (k', v) :: rest, k => if k' = k then some v else lookupA rest k

/-- Python `d[k] = v`: overwrite in place if the key exists, else append. -/
def insertA {α : Type} : List (String × α) → String → α → List (String × α)
  | [], k, v => [(k, v)]
  | (k', v') :: rest, k, v =>
      if k' = k then (k, v) :: rest else (k', v') :: insertA rest k v

def keysA {α : Type} (m : List (String × α)) : List String :=
  m.map Prod.fst

def valuesA {α : Type} (m : List (String × α)) : List α :=
  m.map Prod.snd

/-! ## pixel_matching.py -/

/-- The statistical fingerprint `create_pixel_fingerprint` builds: shape,
five scalar statistics, and a 50-bin integer histogram. -/
structure Fingerprint where
  shape : List ℕ
  mean : ℚ
  std : ℚ
  min : ℚ
  max : ℚ
  median : ℚ
  histogram : List ℤ
deriving DecidableEq, Repr

/-- The default `tolerance` argument of `fingerprints_match`: 1e-6. -/
def tolQ : ℚ := 1 / 1000000

/-- Centered cross sum `n * Σ x·y - Σx * Σy` entering Pearson correlation:
`corr = Sxy / sqrt (Sxy x x * Sxy y y)`. -/
def Sxy (h1 h2 : List ℤ) : ℤ :=
  (h1.length : ℤ) * (List.zipWith (· * ·) h1 h2).sum - h1.sum * h2.sum

/-- numpy's `corrcoef` yields NaN exactly when a histogram has zero
variance (0/0). -/
def histNaN (h1 h2 : List ℤ) : Bool :=
  Sxy h1 h1 = 0 ∨ Sxy h2 h2 = 0

/-- Exact embedding of `correlation >= 0.999` for non-NaN correlation:
positive covariance sum whose square scaled by 10^6 dominates
998001 = 999^2 times the variance product. -/
def histCorrGe999 (h1 h2 : List ℤ) : Bool :=
  0 < Sxy h1 h2 ∧ 998001 * Sxy h1 h1 * Sxy h2 h2 ≤ 1000000 * (Sxy h1 h2) ^ 2

/-- The spec's reading of the histogram test, `correlation > 0.999`,
embedded the same way but with a strict inequality.  Kept separate from
the code's test so the two can be compared. -/
def specHistCorrGt999 (h1 h2 : List ℤ) : Bool :=
  0 < Sxy h1 h2 ∧ 998001 * Sxy h1 h1 * Sxy h2 h2 < 1000000 * (Sxy h1 h2) ^ 2

/-- `fingerprints_match` from pixel_matching.py, with the scalar loop over
mean/std/min/max/median unrolled and each early `return False` kept as a
branch.  The code rejects when `np.isnan(correlation) or correlation <
0.999`, so it accepts a correlation exactly equal to 0.999. -/
def fingerprints_match (fp1 fp2 : Fingerprint) : Bool :=
  if fp1.shape ≠ fp2.shape then false
  else if |fp1.mean - fp2.mean| > tolQ then false
  else if |fp1.std - fp2.std| > tolQ then false
  else if |fp1.min - fp2.min| > tolQ then false
  else if |fp1.max - fp2.max| > tolQ then false
  else if |fp1.median - fp2.median| > tolQ then false
  else if histNaN fp1.histogram fp2.histogram then false
  else if ¬ histCorrGe999 fp1.histogram fp2.histogram then false
  else true

/-- `create_fingerprint_key` from pixel_matching.py: shape joined with
"x", then mean and std at three decimals, then min and max raw. -/
def create_fingerprint_key (fp : Fingerprint) : String :=
  String.intercalate "x" (fp.shape.map toString) ++ "_" ++
    fmtFixed 3 fp.mean ++ "_" ++ fmtFixed 3 fp.std ++ "_" ++
    toString fp.min ++ "_" ++ toString fp.max

/-! ## models.py: instances and comparison results

A `DicomInstance` carries the fields the comparator reads.  Identity
fields not consulted by any claim (series/study uids, file paths) are
elided.  `pixelHash` and `pixelFingerprint` are the per-run outcomes of
`create_pixel_hash` and `create_pixel_fingerprint` on the instance's
file: `.error` stands for a raised `PixelMatchingError`. -/
deriving instance DecidableEq for Except

structure DicomInstance where
  sop_instance_uid : String
  tags : List (String × Val)
  pixelHash : Except Unit String
  pixelFingerprint : Except Unit Fingerprint
deriving DecidableEq, Repr

inductive DifferenceType where
  | VALUE_DIFF | MISSING_TAG | EXTRA_TAG | TYPE_DIFF
deriving DecidableEq, Repr

structure TagDifference where
  tag_name : String
  tag_keyword : String
  baseline_value : Option Val
  comparison_value : Option Val
  difference_type : DifferenceType
  vr : String
deriving DecidableEq, Repr

structure InstanceComparison where
  sop_instance_uid : String
  baseline_file : String
  comparison_file : String
  tag_differences : List TagDifference
  is_perfect_match : Bool
deriving DecidableEq, Repr

structure FileComparisonResult where
  baseline_file : String
  comparison_file : String
  matched_instances : List InstanceComparison
  missing_instances : List DicomInstance
  extra_instances : List DicomInstance
  total_instances_baseline : ℕ
  total_instances_comparison : ℕ
deriving DecidableEq, Repr

/-! ## metadata_matching.py -/

structure MatchResult where
  success : Bool
  strategy : String
  confidence : ℚ
  match_key : String
  details : String
deriving Repr

def safe_get_tag (inst : DicomInstance) (tag_name : String) : Option Val :=
  lookupA inst.tags tag_name

/-- Python `float` over the first elements of a multi-valued tag. -/
def listFloats : List SVal → Except Unit (List ℚ)
  | [] => .ok []
  | x :: xs => do
      let q ← sFloat x
      let qs ← listFloats xs
      .ok (q :: qs)

/-- The `image_orientation and len(image_orientation) >= 6` block of
`create_spatial_key`: absent or falsy yields the empty string, a truthy
non-list raises on `len`, a long enough list formats its first six
entries at three decimals joined by underscores. -/
def orientationPart : Option Val → Except Unit String
  | none => .ok ""
  | some (.arr xs) =>
      if ¬ xs.isEmpty ∧ 6 ≤ xs.length then do
        let qs ← listFloats (xs.take 6)
        .ok (String.intercalate "_" (qs.map (fmtFixed 3)))
      else .ok ""
  | some v => if truthy v then .error () else .ok ""

/-- The `pixel_spacing and len(pixel_spacing) >= 2` block shared by
`create_spatial_key` and `create_dimensional_key`, with the given
joining layout `a.3f ++ "x" ++ b.3f`. -/
def spacingPart : Option Val → Except Unit String
  | none => .ok ""
  | some (.arr xs) =>
      if ¬ xs.isEmpty ∧ 2 ≤ xs.length then do
        let qa ← sFloat (xs.getD 0 .bad)
        let qb ← sFloat (xs.getD 1 .bad)
        .ok (fmtFixed 3 qa ++ "x" ++ fmtFixed 3 qb)
      else .ok ""
  | some v => if truthy v then .error () else .ok ""

/-- Python `x or 0` rendered into an f-string. -/
def orZeroStr : Option Val → String
  | some v => if truthy v then pyStr v else "0"
  | none => "0"

/-- An optional key part `pre ++ float(v) at d decimals` appended when
the tag is present, as in the acquisition/sequence/dimensional keys. -/
def optFmtPart (pre : String) (d : ℕ) : Option Val → Except Unit (List String)
  | none => .ok []
  | some v => do
      let q ← pyFloat v
      .ok [pre ++ fmtFixed d q]

/-- Body of `create_spatial_key` before its `except` clause: `.error`
stands for a raised exception, `.ok none` for `return None`. -/
def create_spatial_keyE (inst : DicomInstance) : Except Unit (Option String) :=
  let slice_location := safe_get_tag inst "SliceLocation"
  let image_orientation := safe_get_tag inst "ImageOrientationPatient"
  let pixel_spacing := safe_get_tag inst "PixelSpacing"
  let rows := safe_get_tag inst "Rows"
  let cols := safe_get_tag inst "Columns"
  match slice_location with
  | none => .ok none
  | some sl => do
      let orientation_str ← orientationPart image_orientation
      let spacing_str ← spacingPart pixel_spacing
      let dims_str := orZeroStr rows ++ "x" ++ orZeroStr cols
      let q ← pyFloat sl
      .ok (some ("spatial_" ++ fmtFixed 3 q ++ "_" ++ orientation_str ++ "_" ++
        spacing_str ++ "_" ++ dims_str))

/-- `create_spatial_key`: the body with its exceptions caught to `None`. -/
def create_spatial_key (inst : DicomInstance) : Option String :=
  match create_spatial_keyE inst with
  | .ok o => o
  | .error _ => none

/-- Body of `create_acquisition_key` before its `except` clause. -/
def create_acquisition_keyE (inst : DicomInstance) : Except Unit (Option String) :=
  let series_number := safe_get_tag inst "SeriesNumber"
  let instance_number := safe_get_tag inst "InstanceNumber"
  let slice_thickness := safe_get_tag inst "SliceThickness"
  let echo_time := safe_get_tag inst "EchoTime"
  let repetition_time := safe_get_tag inst "RepetitionTime"
  match series_number, instance_number with
  | some sn, some inum => do
      let p0 := "acq_" ++ pyStr sn ++ "_" ++ pyStr inum
      let p1 ← optFmtPart "thick_" 2 slice_thickness
      let p2 ← optFmtPart "te_" 2 echo_time
      let p3 ← optFmtPart "tr_" 2 repetition_time
      .ok (some (String.intercalate "_" (p0 :: (p1 ++ p2 ++ p3))))
  | _, _ => .ok none

def create_acquisition_key (inst : DicomInstance) : Option String :=
  match create_acquisition_keyE inst with
  | .ok o => o
  | .error _ => none

/-- Body of `create_position_key` before its `except` clause. -/
def create_position_keyE (inst : DicomInstance) : Except Unit (Option String) :=
  match safe_get_tag inst "ImagePositionPatient" with
  | none => .ok none
  | some (.arr xs) =>
      if xs.isEmpty ∨ xs.length < 3 then .ok none
      else do
        let x ← sFloat (xs.getD 0 .bad)
        let y ← sFloat (xs.getD 1 .bad)
        let z ← sFloat (xs.getD 2 .bad)
        .ok (some ("pos_" ++ fmtFixed 2 x ++ "_" ++ fmtFixed 2 y ++ "_" ++ fmtFixed 2 z))
  | some v => if truthy v then .error () else .ok none

def create_position_key (inst : DicomInstance) : Option String :=
  match create_position_keyE inst with
  | .ok o => o
  | .error _ => none

/-- Body of `create_sequence_key` before its `except` clause. -/
def create_sequence_keyE (inst : DicomInstance) : Except Unit (Option String) :=
  let echo_time := safe_get_tag inst "EchoTime"
  let repetition_time := safe_get_tag inst "RepetitionTime"
  let flip_angle := safe_get_tag inst "FlipAngle"
  let inversion_time := safe_get_tag inst "InversionTime"
  if echo_time = none ∧ repetition_time = none ∧ flip_angle = none then .ok none
  else do
    let p1 ← optFmtPart "te" 2 echo_time
    let p2 ← optFmtPart "tr" 2 repetition_time
    let p3 ← optFmtPart "fa" 1 flip_angle
    let p4 ← optFmtPart "ti" 2 inversion_time
    .ok (some (String.intercalate "_" ("seq" :: (p1 ++ p2 ++ p3 ++ p4))))

def create_sequence_key (inst : DicomInstance) : Option String :=
  match create_sequence_keyE inst with
  | .ok o => o
  | .error _ => none

/-- Body of `create_dimensional_key` before its `except` clause. -/
def create_dimensional_keyE (inst : DicomInstance) : Except Unit (Option String) :=
  let rows := safe_get_tag inst "Rows"
  let cols := safe_get_tag inst "Columns"
  let bits_allocated := safe_get_tag inst "BitsAllocated"
  let pixel_spacing := safe_get_tag inst "PixelSpacing"
  let slice_thickness := safe_get_tag inst "SliceThickness"
  match rows, cols with
  | some r, some c => do
      let p0 := "dim_" ++ pyStr r ++ "x" ++ pyStr c
      let p1 := match bits_allocated with
        | some b => ["bits" ++ pyStr b]
        | none => []
      let ps ← spacingPart pixel_spacing
      let p2 := match pixel_spacing with
        | some (.arr xs) => if ¬ xs.isEmpty ∧ 2 ≤ xs.length then ["ps" ++ ps] else []
        | _ => []
      let p3 ← optFmtPart "thick" 2 slice_thickness
      .ok (some (String.intercalate "_" (p0 :: (p1 ++ p2 ++ p3))))
  | _, _ => .ok none

def create_dimensional_key (inst : DicomInstance) : Option String :=
  match create_dimensional_keyE inst with
  | .ok o => o
  | .error _ => none

/-- Dispatch on a strategy name to the corresponding raw key body, for
stating how exceptions inside key derivation surface. -/
def strategyKeyE (strategy : String) (inst : DicomInstance) : Except Unit (Option String) :=
  if strategy = "spatial" then create_spatial_keyE inst
  else if strategy = "acquisition" then create_acquisition_keyE inst
  else if strategy = "position" then create_position_keyE inst
  else if strategy = "sequence" then create_sequence_keyE inst
  else if strategy = "dimensional" then create_dimensional_keyE inst
  else .ok none

def strategyConfidence (strategy : String) : ℚ :=
  if strategy = "spatial" then 0.95
  else if strategy = "acquisition" then 0.85
  else if strategy = "position" then 0.90
  else if strategy = "sequence" then 0.75
  else if strategy = "dimensional" then 0.70
  else 0

def strategyDescription (strategy : String) : String :=
  if strategy = "spatial" then "Spatial position and orientation"
  else if strategy = "acquisition" then "Series/instance numbers and timing"
  else if strategy = "position" then "3D spatial coordinates"
  else if strategy = "sequence" then "MR sequence parameters"
  else if strategy = "dimensional" then "Image dimensions and characteristics"
  else ""

def knownStrategyNames : List String :=
  ["spatial", "acquisition", "position", "sequence", "dimensional"]

/-- `try_metadata_matching` from metadata_matching.py.  The key functions
catch their own exceptions and return `None`, so the surrounding
`try/except` of the Python function never fires; both failure paths end
in the same failed `MatchResult` (success false, confidence 0.0, empty
key), differing only in the `details` text. -/
def try_metadata_matching (inst : DicomInstance) (strategy : String) : MatchResult :=
  if strategy ∈ knownStrategyNames then
    match (match strategy with
      | "spatial" => create_spatial_key inst
      | "acquisition" => create_acquisition_key inst
      | "position" => create_position_key inst
      | "sequence" => create_sequence_key inst
      | _ => create_dimensional_key inst) with
    | some k =>
        ⟨true, strategy, strategyConfidence strategy, k, strategyDescription strategy⟩
    | none =>
        ⟨false, strategy, 0, "", "Required tags missing for " ++ strategyDescription strategy⟩
  else ⟨false, strategy, 0, "", "Unknown strategy: " ++ strategy⟩

/-! ## dicom_comparator.py: lookup building and instance diffing -/

inductive Mode where
  | uid | hash | fingerprint | smart
deriving DecidableEq, Repr

/-- The matching key `_build_instance_lookup` computes for one instance
under one mode; `.error` is a raised `PixelMatchingError`.  In
fingerprint mode the code also stores the computed fingerprint on the
instance (`_pixel_fingerprint`); here the instance already carries it as
`pixelFingerprint`, which is defined exactly when the key computation
succeeds. -/
def instanceKey (mode : Mode) (inst : DicomInstance) : Except Unit String :=
  match mode with
  | .uid => .ok inst.sop_instance_uid
  | .hash => inst.pixelHash
  | .fingerprint => Except.map create_fingerprint_key inst.pixelFingerprint
  | .smart => .ok inst.sop_instance_uid

/-- `_build_instance_lookup`: a dict from matching key to instance, built
over the flattened study/series/instance traversal; instances whose key
computation raises are logged and skipped. -/
def build_instance_lookup (mode : Mode) (insts : List DicomInstance) :
    List (String × DicomInstance) :=
  insts.foldl
    (fun m inst =>
      match instanceKey mode inst with
      | .ok k => insertA m k inst
      | .error _ => m)
    []

/-- A step of `_build_instance_lookup`'s fold. -/
def lookupStep (mode : Mode) (m : List (String × DicomInstance)) (inst : DicomInstance) :
    List (String × DicomInstance) :=
  match instanceKey mode inst with
  | .ok k => insertA m k inst
  | .error _ => m

/-- The last instance of the list whose key under `mode` is `k`: what a
dict keyed by `instanceKey` retains. -/
def lastWithKey (mode : Mode) (k : String) : List DicomInstance → Option DicomInstance
  | [] => none
  | i :: rest =>
      match lastWithKey mode k rest with
      | some j => some j
      | none => if instanceKey mode i = .ok k then some i else none

/-- `self.ignored_tags` from `DicomComparator.__init__`. -/
def ignored_tags : List String :=
  ["InstanceCreationDate", "InstanceCreationTime", "ImplementationVersionName",
   "SourceApplicationEntityTitle", "StationName", "InstitutionName",
   "InstitutionalDepartmentName"]

/-- The body of `_compare_instances`' per-keyword loop: skip ignored
keywords, then classify by presence and (in)equality, upgrading an
unequal pair of differently-typed values to `TYPE_DIFF`. -/
def diffForTag (b c : DicomInstance) (k : String) : Option TagDifference :=
  if k ∈ ignored_tags then none
  else
    match lookupA b.tags k, lookupA c.tags k with
    | none, some cv => some ⟨k, k, none, some cv, .EXTRA_TAG, "UK"⟩
    | some bv, none => some ⟨k, k, some bv, none, .MISSING_TAG, "UK"⟩
    | some bv, some cv =>
        if pyEq bv cv then none
        else some ⟨k, k, some bv, some cv,
          if bv.vtype ≠ cv.vtype then .TYPE_DIFF else .VALUE_DIFF, "UK"⟩
    | none, none => none

/-- The union `set(baseline.tags) | set(comparison.tags)`, as a
duplicate-free list.  Python iterates this set in unspecified order; the
claims about the diff are order-independent. -/
def allTagsUnion (b c : DicomInstance) : List String :=
  (keysA b.tags ++ keysA c.tags).dedup

/-- `_compare_instances`. -/
def compare_instances (b c : DicomInstance) (baseline_file comparison_file : String) :
    InstanceComparison :=
  let tds := (allTagsUnion b c).filterMap (diffForTag b c)
  ⟨b.sop_instance_uid, baseline_file, comparison_file, tds, tds.isEmpty⟩

/-! ## dicom_comparator.py: fingerprint matching -/

/-- `hasattr(inst, '_pixel_fingerprint')` together with the attribute's
value: defined exactly for instances whose fingerprint computation
succeeded, which are the ones the fingerprint lookup stores. -/
def getFp (i : DicomInstance) : Option Fingerprint :=
  i.pixelFingerprint.toOption

/-- One accepted pairing of `_match_by_fingerprint` (the data from which
the code builds the `InstanceComparison` and marks the used key). -/
structure FpPair where
  baseline : DicomInstance
  comp : DicomInstance
  comparison_key : String
deriving DecidableEq, Repr

/-- Phase 1 of `_match_by_fingerprint`: the exact-key probe. -/
def fpExactCheck (comp : List (String × DicomInstance)) (used : List String)
    (bk : String) (bfp : Fingerprint) : Option (String × DicomInstance) :=
  if bk ∈ used then none
  else
    match lookupA comp bk with
    | some ci =>
        match getFp ci with
        | some cfp => if fingerprints_match bfp cfp then some (bk, ci) else none
        | none => none
    | none => none

/-- Phase 2 of `_match_by_fingerprint`: first not-yet-used comparison
instance whose fingerprint matches, in dict order. -/
def fpScanFirst (bfp : Fingerprint) (used : List String) :
    List (String × DicomInstance) → Option (String × DicomInstance)
  | [] => none
  | (ck, ci) :: rest =>
      if ck ∈ used then fpScanFirst bfp used rest
      else
        match getFp ci with
        | some cfp =>
            if fingerprints_match bfp cfp then some (ck, ci)
            else fpScanFirst bfp used rest
        | none => fpScanFirst bfp used rest

/-- The main loop of `_match_by_fingerprint` over the baseline dict,
threading the used-key set. -/
def fpGo (comp : List (String × DicomInstance)) :
    List (String × DicomInstance) → List String → List FpPair
  | [], _ => []
  | (bk, bi) :: rest, used =>
      match getFp bi with
      | none => fpGo comp rest used
      | some bfp =>
          match (match fpExactCheck comp used bk bfp with
                 | some r => some r
                 | none => fpScanFirst bfp used comp) with
          | some (ck, ci) => ⟨bi, ci, ck⟩ :: fpGo comp rest (ck :: used)
          | none => fpGo comp rest used

/-- `_match_by_fingerprint` (returning the accepted pairings; the code
maps them through `_compare_instances`). -/
def match_by_fingerprint (baseline comp : List (String × DicomInstance)) : List FpPair :=
  fpGo comp baseline []

/-! ## dicom_comparator.py: smart cascading matching -/

inductive Strategy where
  | pixel_hash | pixel_fingerprint | spatial | acquisition | position | sequence | dimensional
deriving DecidableEq, Repr

def Strategy.pyName : Strategy → String
  | .pixel_hash => "pixel_hash"
  | .pixel_fingerprint => "pixel_fingerprint"
  | .spatial => "spatial"
  | .acquisition => "acquisition"
  | .position => "position"
  | .sequence => "sequence"
  | .dimensional => "dimensional"

/-- The fixed priority order of `strategies` in
`_match_with_smart_strategy`. -/
def smartStrategies : List Strategy :=
  [.pixel_hash, .pixel_fingerprint, .spatial, .acquisition, .position,
   .sequence, .dimensional]

/-- Append to a dict-of-lists bucket, creating the bucket on first use
(the `comparison_lookup` build). -/
def bucketAppend {α : Type} (m : List (String × List α)) (k : String) (x : α) :
    List (String × List α) :=
  match lookupA m k with
  | some xs => insertA m k (xs ++ [x])
  | none => insertA m k [x]

/-- The pre-built per-strategy lookup table: for each comparison
instance, its key under the strategy, grouped by key, with the
strategy's confidence. -/
def buildStrategyLookup (comp : List (String × DicomInstance)) (sname : String) :
    List (String × List (String × DicomInstance × ℚ)) :=
  comp.foldl
    (fun m p =>
      let r := try_metadata_matching p.2 sname
      if r.success then bucketAppend m r.match_key (p.1, p.2, r.confidence) else m)
    []

/-- `strategy_lookups`: one table per metadata strategy (the pixel
strategies are scanned live, not pre-indexed). -/
def buildStrategyLookups (comp : List (String × DicomInstance)) :
    List (String × List (String × List (String × DicomInstance × ℚ))) :=
  knownStrategyNames.foldl (fun m s => insertA m s (buildStrategyLookup comp s)) []

/-- The running best candidate for one baseline instance:
`best_match`, `best_comparison_uid`, `best_strategy`,
`best_confidence`. -/
structure Best where
  bmatch : Option DicomInstance
  buid : Option String
  bstrategy : Option Strategy
  bconfidence : ℚ
deriving Repr

def initBest : Best := ⟨none, none, none, 0⟩

/-- The pixel-hash scan: first unused comparison instance with an equal
hash.  A decode failure on any scanned comparison instance raises
`PixelMatchingError`, which the code catches with `continue`, abandoning
the strategy with the state unchanged - as does running out of
candidates, so both are `none`. -/
def hashScan (bh : String) (used : List String) :
    List (String × DicomInstance) → Option (String × DicomInstance)
  | [] => none
  | (cu, ci) :: rest =>
      if cu ∈ used then hashScan bh used rest
      else
        match ci.pixelHash with
        | .ok ch => if ch = bh then some (cu, ci) else hashScan bh used rest
        | .error _ => none

def pixelHashStep (comp : List (String × DicomInstance)) (used : List String)
    (b : DicomInstance) (st : Best) : Best :=
  match b.pixelHash with
  | .error _ => st
  | .ok bh =>
      match hashScan bh used comp with
      | some (cu, ci) => ⟨some ci, some cu, some .pixel_hash, 1⟩
      | none => st

/-- The pixel-fingerprint scan, same shape as the hash scan but accepting
the first unused fingerprint-matching candidate. -/
def fpScanSmart (bfp : Fingerprint) (used : List String) :
    List (String × DicomInstance) → Option (String × DicomInstance)
  | [] => none
  | (cu, ci) :: rest =>
      if cu ∈ used then fpScanSmart bfp used rest
      else
        match ci.pixelFingerprint with
        | .ok cfp =>
            if fingerprints_match bfp cfp then some (cu, ci) else fpScanSmart bfp used rest
        | .error _ => none

def pixelFpStep (comp : List (String × DicomInstance)) (used : List String)
    (b : DicomInstance) (st : Best) : Best :=
  match b.pixelFingerprint with
  | .error _ => st
  | .ok bfp =>
      match fpScanSmart bfp used comp with
      | some (cu, ci) => ⟨some ci, some cu, some .pixel_fingerprint, 0.95⟩
      | none => st

/-- First candidate in a lookup bucket whose uid is unused (the scan
breaks at the first unused candidate whether or not it improves on the
current best). -/
def firstUnused (used : List String) :
    List (String × DicomInstance × ℚ) → Option (String × DicomInstance × ℚ)
  | [] => none
  | (cu, ci, cf) :: rest => if cu ∈ used then firstUnused used rest else some (cu, ci, cf)

/-- One metadata strategy attempt: derive the baseline key, look it up in
the pre-built table, take the first unused candidate, and replace the
held best only if the candidate's confidence is strictly greater. -/
def metadataStep (lookups : List (String × List (String × List (String × DicomInstance × ℚ))))
    (used : List String) (b : DicomInstance) (s : Strategy) (st : Best) : Best :=
  let r := try_metadata_matching b s.pyName
  if r.success then
    match lookupA lookups s.pyName with
    | some tbl =>
        match lookupA tbl r.match_key with
        | some candidates =>
            match firstUnused used candidates with
            | some (cu, ci, conf) =>
                if st.bconfidence < conf then ⟨some ci, some cu, some s, conf⟩ else st
            | none => st
        | none => st
    | none => st
  else st

/-- One iteration of the strategy loop body for one baseline instance. -/
def smartStep (comp : List (String × DicomInstance))
    (lookups : List (String × List (String × List (String × DicomInstance × ℚ))))
    (used : List String) (b : DicomInstance) (s : Strategy) (st : Best) : Best :=
  match s with
  | .pixel_hash => pixelHashStep comp used b st
  | .pixel_fingerprint => pixelFpStep comp used b st
  | _ => metadataStep lookups used b s st

/-- The strategy loop with its early exit: after each strategy, stop as
soon as `best_confidence >= 0.95`. -/
def smartLoop (comp : List (String × DicomInstance))
    (lookups : List (String × List (String × List (String × DicomInstance × ℚ))))
    (used : List String) (b : DicomInstance) : List Strategy → Best → Best
  | [], st => st
  | s :: rest, st =>
      let st' := smartStep comp lookups used b s st
      if 0.95 ≤ st'.bconfidence then st' else smartLoop comp lookups used b rest st'

/-- The same strategy sequence folded without the early exit, for
relating the loop to its executed strategy list. -/
def smartFold (comp : List (String × DicomInstance))
    (lookups : List (String × List (String × List (String × DicomInstance × ℚ))))
    (used : List String) (b : DicomInstance) (L : List Strategy) : Best :=
  L.foldl (fun st s => smartStep comp lookups used b s st) initBest

/-- One accepted smart pairing, with the provenance the code stores on
the `InstanceComparison` (`_matching_strategy`, `_matching_confidence`,
`_comparison_uid`). -/
structure SmartPair where
  baseline : DicomInstance
  comp : DicomInstance
  comparison_uid : String
  strategy : Option Strategy
  confidence : ℚ
deriving Repr

/-- The main loop of `_match_with_smart_strategy` over baseline
instances, threading the used-uid set. -/
def smartGo (comp : List (String × DicomInstance))
    (lookups : List (String × List (String × List (String × DicomInstance × ℚ)))) :
    List (String × DicomInstance) → List String → List SmartPair
  | [], _ => []
  | (_, bi) :: rest, used =>
      let st := smartLoop comp lookups used bi smartStrategies initBest
      match st.bmatch, st.buid with
      | some ci, some cu =>
          ⟨bi, ci, cu, st.bstrategy, st.bconfidence⟩ :: smartGo comp lookups rest (cu :: used)
      | _, _ => smartGo comp lookups rest used

/-- `_match_with_smart_strategy` (returning the accepted pairings). -/
def match_with_smart_strategy (baseline comp : List (String × DicomInstance)) :
    List SmartPair :=
  smartGo comp (buildStrategyLookups comp) baseline []

/-! ## dicom_comparator.py: compare_studies -/

/-- `{inst.sop_instance_uid: inst for inst in d.values()}`. -/
def sopDict (l : List DicomInstance) : List (String × DicomInstance) :=
  l.foldl (fun m i => insertA m i.sop_instance_uid i) []

/-- The uid/hash branch key sets: `common_keys`, `missing_sop_uids`,
`extra_sop_uids` as computed by set intersection/difference over the two
lookup key sets. -/
def stdCommonKeys (bl cl : List (String × DicomInstance)) : List String :=
  (keysA bl).filter (fun k => decide (k ∈ keysA cl))

def stdMissingKeys (bl cl : List (String × DicomInstance)) : List String :=
  (keysA bl).filter (fun k => decide (k ∉ keysA cl))

def stdExtraKeys (bl cl : List (String × DicomInstance)) : List String :=
  (keysA cl).filter (fun k => decide (k ∉ keysA bl))

/-- First baseline-dict value with the given SOP uid:
`[inst for inst in baseline_instances.values() if inst.sop_instance_uid
== sop][0]` when nonempty. -/
def firstBaselineWithSop (baseline : List (String × DicomInstance)) (sop : String) :
    Option DicomInstance :=
  (valuesA baseline).find? (fun i => decide (i.sop_instance_uid = sop))

/-- The comparison-side rescan of `compare_studies`' fingerprint branch
for one accepted pairing: scan the comparison dict in order and return
the SOP uid of the first instance (carrying a fingerprint) whose
fingerprint matches the first baseline instance bearing the pairing's
SOP uid. -/
def fpRescanOne (baseline : List (String × DicomInstance)) (sop : String) :
    List (String × DicomInstance) → Option String
  | [] => none
  | (_, ci) :: rest =>
      match getFp ci with
      | none => fpRescanOne baseline sop rest
      | some cfp =>
          match firstBaselineWithSop baseline sop with
          | some bi =>
              match getFp bi with
              | some bfp =>
                  if fingerprints_match bfp cfp then some ci.sop_instance_uid
                  else fpRescanOne baseline sop rest
              | none => fpRescanOne baseline sop rest
          | none => fpRescanOne baseline sop rest

/-- `comparison_matched` of the fingerprint branch: the set of SOP uids
the rescan finds, one per accepted pairing.  Modelled as a
duplicate-free list; only membership is consulted. -/
def fpComparisonMatched (bl cl : List (String × DicomInstance)) (pairs : List FpPair) :
    List String :=
  pairs.foldl
    (fun acc p =>
      match fpRescanOne bl p.baseline.sop_instance_uid cl with
      | some u => if u ∈ acc then acc else acc ++ [u]
      | none => acc)
    []

/-- `baseline_matched` of the fingerprint branch: the SOP uids of the
accepted pairings' baseline instances (`comp.sop_instance_uid` of each
produced `InstanceComparison` is the baseline instance's SOP uid). -/
def fpBaselineMatched (pairs : List FpPair) : List String :=
  pairs.map (fun p => p.baseline.sop_instance_uid)

def fingerprintMissingSops (bl cl : List (String × DicomInstance)) : List String :=
  (keysA (sopDict (valuesA bl))).filter
    (fun u => decide (u ∉ fpBaselineMatched (match_by_fingerprint bl cl)))

def fingerprintExtraSops (bl cl : List (String × DicomInstance)) : List String :=
  (keysA (sopDict (valuesA cl))).filter
    (fun u => decide (u ∉ fpComparisonMatched bl cl (match_by_fingerprint bl cl)))

/-- `comparison_matched_uids` of the smart branch: for each accepted
pairing, its stored `_comparison_uid` when that uid is a key of the
comparison dict. -/
def smartComparisonMatched (cl : List (String × DicomInstance)) (pairs : List SmartPair) :
    List String :=
  pairs.foldl
    (fun acc p =>
      if p.comparison_uid ∈ keysA cl then
        if p.comparison_uid ∈ acc then acc else acc ++ [p.comparison_uid]
      else acc)
    []

def smartBaselineMatched (pairs : List SmartPair) : List String :=
  pairs.map (fun p => p.baseline.sop_instance_uid)

/-- `compare_studies`, over the flattened instance lists of the two
study sets.  The smart and fingerprint branches compute missing/extra on
SOP-uid dicts of the lookup values; the uid/hash branch on the lookup
keys themselves. -/
def compare_studies (mode : Mode) (baseline comparison : List DicomInstance)
    (baseline_file comparison_file : String) : FileComparisonResult :=
  let bl := build_instance_lookup mode baseline
  let cl := build_instance_lookup mode comparison
  let result :=
    match mode with
    | .smart =>
        let pairs := match_with_smart_strategy bl cl
        let all_baseline := sopDict (valuesA bl)
        let all_comparison := sopDict (valuesA cl)
        let bm := smartBaselineMatched pairs
        let cm := smartComparisonMatched cl pairs
        let missing := ((keysA all_baseline).filter (fun u => decide (u ∉ bm))).filterMap
          (lookupA all_baseline)
        let extra := ((keysA all_comparison).filter (fun u => decide (u ∉ cm))).filterMap
          (lookupA all_comparison)
        (pairs.map (fun (p : SmartPair) =>
           compare_instances p.baseline p.comp baseline_file comparison_file),
         missing, extra)
    | .fingerprint =>
        let pairs := match_by_fingerprint bl cl
        let all_baseline := sopDict (valuesA bl)
        let all_comparison := sopDict (valuesA cl)
        let missing := (fingerprintMissingSops bl cl).filterMap (lookupA all_baseline)
        let extra := (fingerprintExtraSops bl cl).filterMap (lookupA all_comparison)
        (pairs.map (fun (p : FpPair) =>
           compare_instances p.baseline p.comp baseline_file comparison_file),
         missing, extra)
    | _ =>
        let matched := (stdCommonKeys bl cl).filterMap
          (fun k =>
            match lookupA bl k, lookupA cl k with
            | some bi, some ci => some (compare_instances bi ci baseline_file comparison_file)
            | _, _ => none)
        let missing := (stdMissingKeys bl cl).filterMap (lookupA bl)
        let extra := (stdExtraKeys bl cl).filterMap (lookupA cl)
        (matched, missing, extra)
  ⟨baseline_file, comparison_file, result.1, result.2.1, result.2.2, bl.length, cl.length⟩

/-! ## main.py: scoring and grading -/

/-- `_calculate_data_integrity`. -/
def calculate_data_integrity (r : FileComparisonResult) : ℚ :=
  if r.total_instances_baseline = 0 then 0
  else
    let perfect_matches := (r.matched_instances.filter (fun c => c.is_perfect_match)).length
    let tag_diffs := r.matched_instances.length - perfect_matches
    (perfect_matches : ℚ) / r.total_instances_baseline * 100 +
      (tag_diffs : ℚ) / r.total_instances_baseline * 75

/-- The grade banding of `_display_detailed_breakdown`. -/
def qualityGrade (score : ℚ) : String :=
  if 95 ≤ score then "A+"
  else if 90 ≤ score then "A"
  else if 85 ≤ score then "B+"
  else if 80 ≤ score then "B"
  else if 70 ≤ score then "C"
  else if 60 ≤ score then "D"
  else "F"

/-- The grade banding of `_create_csv_summary_data`, which has no 60
band and no F: everything below 70 grades D. -/
def csvQualityGrade (score : ℚ) : String :=
  if 95 ≤ score then "A+"
  else if 90 ≤ score then "A"
  else if 85 ≤ score then "B+"
  else if 80 ≤ score then "B"
  else if 70 ≤ score then "C"
  else "D"

/-! ## Concrete fixtures used by counterexamples and witnesses -/

/-- Histogram `u + 17` for `u = [15, -14, -1, 17, -17, 0 x 45]`:
zero-centered with `sum u^2 = 1000`. -/
def cexHistA : List ℤ := [32, 3, 16, 34, 0] ++ List.replicate 45 17

/-- The same multiset with the entries 16 and 17 exchanged between two
positions, so that the centered cross sum drops by exactly 1: the
Pearson correlation of `cexHistA` and `cexHistB` is exactly
49950 / 50000 = 0.999. -/
def cexHistB : List ℤ := [32, 3, 17, 34, 0, 16] ++ List.replicate 44 17

def cexFpA : Fingerprint := ⟨[50], 17, 1, 0, 34, 17, cexHistA⟩

def cexFpB : Fingerprint := ⟨[50], 17, 1, 0, 34, 17, cexHistB⟩

/-- A 50-bin histogram with nonzero variance. -/
def cexHist50 : List ℤ := 1 :: List.replicate 49 0

/-- Fingerprint with mean 0: far (greater than any tolerance) from
`cexFpG2`. -/
def cexFpG1 : Fingerprint := ⟨[2], 0, 0, 0, 0, 0, cexHist50⟩

/-- Fingerprint with mean 10. -/
def cexFpG2 : Fingerprint := ⟨[2], 10, 0, 0, 0, 0, cexHist50⟩

/-- Baseline instance with SOP uid "s" and fingerprint `cexFpG1`; it
precedes `cexB2` in the baseline dict's value order. -/
def cexB1 : DicomInstance := ⟨"s", [], .error (), .ok cexFpG1⟩

/-- Second baseline instance with the same SOP uid "s" but fingerprint
`cexFpG2` (the lookup is keyed by fingerprint key, so both are kept). -/
def cexB2 : DicomInstance := ⟨"s", [], .error (), .ok cexFpG2⟩

/-- The only comparison instance: SOP uid "c1", fingerprint `cexFpG2`,
so it pairs with `cexB2`. -/
def cexC1 : DicomInstance := ⟨"c1", [], .error (), .ok cexFpG2⟩

def cexBl : List (String × DicomInstance) :=
  build_instance_lookup .fingerprint [cexB1, cexB2]

def cexCl : List (String × DicomInstance) :=
  build_instance_lookup .fingerprint [cexC1]

/-- A perfect-match instance comparison. -/
def icPerfect : InstanceComparison := ⟨"u", "b", "c", [], true⟩

/-- A matched-with-tag-differences instance comparison. -/
def icImperfect : InstanceComparison :=
  ⟨"u", "b", "c", [⟨"Rows", "Rows", some (.int 512), some (.int 513), .VALUE_DIFF, "UK"⟩],
   false⟩

def instMissing : DicomInstance := ⟨"m", [], .error (), .error ()⟩

/-- The spec's worked example: baseline total 10, 7 perfect, 2 with tag
differences, 1 missing. -/
def r85 : FileComparisonResult :=
  ⟨"b", "c", List.replicate 7 icPerfect ++ List.replicate 2 icImperfect,
   [instMissing], [], 10, 10⟩

/-! ## Helper lemmas -/

theorem lookupA_insertA {α : Type} (m : List (String × α)) (k k' : String) (v : α) :
    lookupA (insertA m k v) k' = if k = k' then some v else lookupA m k' := by
  induction m with
  | nil =>
      by_cases h : k = k' <;> simp [insertA, lookupA, h]
  | cons hd tl ih =>
      obtain ⟨k₀, v₀⟩ := hd
      by_cases h0 : k₀ = k
      · subst h0
        by_cases h1 : k₀ = k'
        · subst h1; simp [insertA, lookupA]
        · simp [insertA, lookupA, h1]
      · by_cases h1 : k₀ = k'
        · subst h1
          have hk : ¬ k = k₀ := fun h => h0 h.symm
          simp [insertA, lookupA, h0, hk]
        · simp [insertA, lookupA, h0, h1, ih]

theorem keysA_insertA {α : Type} (m : List (String × α)) (k : String) (v : α) :
    ∀ k', k' ∈ keysA (insertA m k v) ↔ k' = k ∨ k' ∈ keysA m := by
  intro k'
  induction m with
  | nil => simp [insertA, keysA]
  | cons hd tl ih =>
      obtain ⟨k₀, v₀⟩ := hd
      by_cases h0 : k₀ = k
      · subst h0
        simp [insertA, keysA] at ih ⊢
      · simp only [insertA, if_neg h0, keysA, List.map_cons, List.mem_cons] at ih ⊢
        rw [ih]
        tauto

theorem nodup_keysA_insertA {α : Type} (m : List (String × α)) (k : String) (v : α)
    (h : (keysA m).Nodup) : (keysA (insertA m k v)).Nodup := by
  induction m with
  | nil => simp [insertA, keysA]
  | cons hd tl ih =>
      obtain ⟨k₀, v₀⟩ := hd
      simp only [keysA, List.map_cons, List.nodup_cons] at h
      by_cases h0 : k₀ = k
      · subst h0
        simpa [insertA, keysA, List.nodup_cons] using h
      · have htl := ih h.2
        simp only [insertA, if_neg h0, keysA, List.map_cons, List.nodup_cons]
        refine ⟨fun hmem => ?_, htl⟩
        rcases (keysA_insertA tl k v k₀).mp hmem with h' | h'
        · exact h0 h'
        · exact h.1 h'

theorem lookupA_mem_keysA {α : Type} (m : List (String × α)) (k : String) (v : α)
    (h : lookupA m k = some v) : k ∈ keysA m := by
  induction m with
  | nil => simp [lookupA] at h
  | cons hd tl ih =>
      obtain ⟨k₀, v₀⟩ := hd
      by_cases h0 : k₀ = k
      · subst h0; simp [keysA]
      · simp only [lookupA, if_neg h0] at h
        simp [keysA] at ih ⊢
        exact Or.inr (ih h)

theorem lookupA_none_of_not_mem_keysA {α : Type} (m : List (String × α)) (k : String)
    (h : k ∉ keysA m) : lookupA m k = none := by
  induction m with
  | nil => simp [lookupA]
  | cons hd tl ih =>
      obtain ⟨k₀, v₀⟩ := hd
      simp only [keysA, List.map_cons, List.mem_cons] at h
      push_neg at h
      have h1 : ¬ k₀ = k := fun hh => h.1 hh.symm
      simp only [lookupA, if_neg h1]
      exact ih h.2

theorem build_instance_lookup_eq_foldl (mode : Mode) (l : List DicomInstance) :
    build_instance_lookup mode l = l.foldl (lookupStep mode) [] := by
  rfl

theorem lookupA_foldl_lookupStep (mode : Mode) (l : List DicomInstance)
    (m : List (String × DicomInstance)) (k : String) :
    lookupA (l.foldl (lookupStep mode) m) k =
      match lastWithKey mode k l with
      | some i => some i
      | none => lookupA m k := by
  induction l generalizing m with
  | nil => simp [lastWithKey]
  | cons i rest ih =>
      simp only [List.foldl_cons, lastWithKey]
      rw [ih]
      cases hrest : lastWithKey mode k rest with
      | some j => simp
      | none =>
          simp only []
          cases hk : instanceKey mode i with
          | ok k' =>
              simp only [lookupStep, hk]
              rw [lookupA_insertA]
              by_cases h : k' = k
              · subst h; simp [hk]
              · simp [h, hk]
          | error e =>
              simp [lookupStep, hk]

theorem keysA_foldl_lookupStep (mode : Mode) (l : List DicomInstance)
    (m : List (String × DicomInstance)) (k : String) :
    k ∈ keysA (l.foldl (lookupStep mode) m) ↔
      (∃ i ∈ l, instanceKey mode i = .ok k) ∨ k ∈ keysA m := by
  induction l generalizing m with
  | nil => simp
  | cons i rest ih =>
      simp only [List.foldl_cons]
      rw [ih]
      cases hk : instanceKey mode i with
      | ok k' =>
          simp only [lookupStep, hk]
          have := keysA_insertA m k' i k
          constructor
          · rintro (⟨j, hj, hjk⟩ | hm)
            · exact Or.inl ⟨j, List.mem_cons_of_mem _ hj, hjk⟩
            · rcases this.mp hm with h' | h'
              · subst h'; exact Or.inl ⟨i, List.mem_cons_self _ _, hk⟩
              · exact Or.inr h'
          · rintro (⟨j, hj, hjk⟩ | hm)
            · rcases List.mem_cons.mp hj with rfl | hj'
              · right
                apply this.mpr
                left
                rw [hjk] at hk
                exact Except.ok.inj hk
              · exact Or.inl ⟨j, hj', hjk⟩
            · exact Or.inr (this.mpr (Or.inr hm))
      | error e =>
          simp only [lookupStep, hk]
          constructor
          · rintro (⟨j, hj, hjk⟩ | hm)
            · exact Or.inl ⟨j, List.mem_cons_of_mem _ hj, hjk⟩
            · exact Or.inr hm
          · rintro (⟨j, hj, hjk⟩ | hm)
            · rcases List.mem_cons.mp hj with rfl | hj'
              · rw [hjk] at hk; cases hk
              · exact Or.inl ⟨j, hj', hjk⟩
            · exact Or.inr hm

theorem nodup_keysA_foldl_lookupStep (mode : Mode) (l : List DicomInstance)
    (m : List (String × DicomInstance)) (h : (keysA m).Nodup) :
    (keysA (l.foldl (lookupStep mode) m)).Nodup := by
  induction l generalizing m with
  | nil => exact h
  | cons i rest ih =>
      simp only [List.foldl_cons]
      apply ih
      cases hk : instanceKey mode i with
      | ok k' => simpa [lookupStep, hk] using nodup_keysA_insertA m k' i h
      | error e => simpa [lookupStep, hk] using h

/-! ## Claims C10, C8, C9, C4 -/

/-- C10: in uid, hash and fingerprint (and smart) modes the instance
lookup is a dict keyed by the matching key, so of several instances with
the same key only the last-encountered one is retained (`lastWithKey`),
the key list is duplicate-free and holds exactly the keys of
successfully processed instances, and the reported totals are the sizes
of these dicts - the number of distinct keys, not the number of loaded
files. -/
theorem claim_C10 (mode : Mode) (l : List DicomInstance) (k : String)
    (b c : List DicomInstance) (bf cf : String) :
    lookupA (build_instance_lookup mode l) k = lastWithKey mode k l ∧
    (keysA (build_instance_lookup mode l)).Nodup ∧
    (k ∈ keysA (build_instance_lookup mode l) ↔ ∃ i ∈ l, instanceKey mode i = .ok k) ∧
    (compare_studies mode b c bf cf).total_instances_baseline =
      (build_instance_lookup mode b).length ∧
    (compare_studies mode b c bf cf).total_instances_comparison =
      (build_instance_lookup mode c).length ∧
    (build_instance_lookup mode l).length = (keysA (build_instance_lookup mode l)).length := by
  refine ⟨?_, ?_, ?_, ?_, ?_, ?_⟩
  · rw [build_instance_lookup_eq_foldl, lookupA_foldl_lookupStep]
    cases lastWithKey mode k l <;> simp [lookupA]
  · rw [build_instance_lookup_eq_foldl]
    exact nodup_keysA_foldl_lookupStep mode l [] (by simp [keysA])
  · rw [build_instance_lookup_eq_foldl, keysA_foldl_lookupStep]
    simp [keysA]
  · cases mode <;> rfl
  · cases mode <;> rfl
  · simp [keysA]

/-- C8: for a nonzero baseline total the integrity score is
perfect/total*100 + imperfect/total*75; the missing and extra instance
lists do not enter the computation at all. -/
theorem claim_C8 (r : FileComparisonResult) (h : r.total_instances_baseline ≠ 0) :
    calculate_data_integrity r =
      ((r.matched_instances.filter (fun c => c.is_perfect_match)).length : ℚ) /
          r.total_instances_baseline * 100 +
        ((r.matched_instances.length -
            (r.matched_instances.filter (fun c => c.is_perfect_match)).length : ℕ) : ℚ) /
          r.total_instances_baseline * 75 ∧
    ∀ mi ex,
      calculate_data_integrity
          { r with missing_instances := mi, extra_instances := ex } =
        calculate_data_integrity r := by
  constructor
  · unfold calculate_data_integrity
    rw [if_neg h]
  · intro mi ex
    rfl

/-- Witness for C8: the spec's worked example - baseline total 10, 7
perfect, 2 with tag differences, 1 missing - scores exactly 85. -/
theorem claim_C8_witness : calculate_data_integrity r85 = 85 := by
  have h := (claim_C8 r85 (by decide)).1
  rw [h]
  have h1 : (r85.matched_instances.filter (fun c => c.is_perfect_match)).length = 7 := by
    decide
  have h2 : r85.matched_instances.length = 9 := by decide
  have h3 : r85.total_instances_baseline = 10 := by decide
  rw [h1, h2, h3]
  norm_num

/-- C9 (amended): the breakdown display grades follow the full bands
(>= 95 A+, >= 90 A, >= 85 B+, >= 80 B, >= 70 C, >= 60 D, else F), and
the CSV summary follows the same bands down to C but grades every score
below 70 as D - it has no F band. -/
theorem claim_C9 (s : ℚ) :
    (95 ≤ s → qualityGrade s = "A+") ∧
    (90 ≤ s ∧ s < 95 → qualityGrade s = "A") ∧
    (85 ≤ s ∧ s < 90 → qualityGrade s = "B+") ∧
    (80 ≤ s ∧ s < 85 → qualityGrade s = "B") ∧
    (70 ≤ s ∧ s < 80 → qualityGrade s = "C") ∧
    (60 ≤ s ∧ s < 70 → qualityGrade s = "D") ∧
    (s < 60 → qualityGrade s = "F") ∧
    (70 ≤ s → csvQualityGrade s = qualityGrade s) ∧
    (s < 70 → csvQualityGrade s = "D") := by
  unfold qualityGrade csvQualityGrade
  split_ifs with h1 h2 h3 h4 h5 h6 <;>
    refine ⟨fun h => ?_, fun h => ?_, fun h => ?_, fun h => ?_, fun h => ?_, fun h => ?_,
      fun h => ?_, fun h => ?_, fun h => ?_⟩ <;>
    first
      | rfl
      | (exfalso; rcases h with ⟨ha, hb⟩; linarith)
      | (exfalso; linarith)

/-- Counterexample for C9 as frozen: at score 50 the CSV summary grades
"D" while the graded bands (followed by the breakdown display) give "F";
so not every place producing a grade from a score follows the stated
bands. -/
theorem claim_C9_cex :
    csvQualityGrade 50 = "D" ∧ qualityGrade 50 = "F" ∧ ("D" : String) ≠ "F" := by
  refine ⟨?_, ?_, by decide⟩ <;> norm_num [csvQualityGrade, qualityGrade]

/-- C4 (amended): `fingerprints_match` is false whenever the shapes
differ, and on equal shapes it is true iff every scalar statistic agrees
within 1e-6, the histogram correlation is not NaN, and the correlation
is at least 0.999 (the code rejects only a correlation strictly below
0.999, so exactly 0.999 is accepted). -/
theorem claim_C4 (fp1 fp2 : Fingerprint) :
    (fp1.shape ≠ fp2.shape → fingerprints_match fp1 fp2 = false) ∧
    (fingerprints_match fp1 fp2 = true ↔
      (fp1.shape = fp2.shape ∧ |fp1.mean - fp2.mean| ≤ tolQ ∧ |fp1.std - fp2.std| ≤ tolQ ∧
       |fp1.min - fp2.min| ≤ tolQ ∧ |fp1.max - fp2.max| ≤ tolQ ∧
       |fp1.median - fp2.median| ≤ tolQ ∧
       histNaN fp1.histogram fp2.histogram = false ∧
       histCorrGe999 fp1.histogram fp2.histogram = true)) := by
  constructor
  · intro h
    simp [fingerprints_match, h]
  · unfold fingerprints_match
    split_ifs with h1 h2 h3 h4 h5 h6 h7 h8 <;>
      simp_all [not_lt, Bool.not_eq_true]

/-- Counterexample for C4 as frozen: two fingerprints with equal shape
and statistics whose 50-bin histograms have Pearson correlation exactly
0.999 (covariance sum 49950, variance sums 50000 each, and
49950^2 * 10^6 = 998001 * 50000 * 50000): the code accepts them, though
the correlation is not strictly greater than 0.999. -/
theorem claim_C4_cex :
    fingerprints_match cexFpA cexFpB = true ∧
    specHistCorrGt999 cexFpA.histogram cexFpB.histogram = false := by
  constructor
  · unfold fingerprints_match
    have h1 : ¬ (cexFpA.shape ≠ cexFpB.shape) := by decide
    have h2 : ¬ (|cexFpA.mean - cexFpB.mean| > tolQ) := by norm_num [cexFpA, cexFpB, tolQ]
    have h3 : ¬ (|cexFpA.std - cexFpB.std| > tolQ) := by norm_num [cexFpA, cexFpB, tolQ]
    have h4 : ¬ (|cexFpA.min - cexFpB.min| > tolQ) := by norm_num [cexFpA, cexFpB, tolQ]
    have h5 : ¬ (|cexFpA.max - cexFpB.max| > tolQ) := by norm_num [cexFpA, cexFpB, tolQ]
    have h6 : ¬ (|cexFpA.median - cexFpB.median| > tolQ) := by
      norm_num [cexFpA, cexFpB, tolQ]
    have h7 : ¬ (histNaN cexFpA.histogram cexFpB.histogram = true) := by decide
    have h8 : ¬ ¬ (histCorrGe999 cexFpA.histogram cexFpB.histogram = true) := by decide
    rw [if_neg h1, if_neg h2, if_neg h3, if_neg h4, if_neg h5, if_neg h6, if_neg h7,
      if_neg h8]
  · decide

/-! ## Claim C3 -/

theorem mem_valuesA_insertA {α : Type} (m : List (String × α)) (k : String) (x v : α)
    (h : v ∈ valuesA (insertA m k x)) : v = x ∨ v ∈ valuesA m := by
  induction m with
  | nil => simpa [insertA, valuesA] using h
  | cons hd tl ih =>
      obtain ⟨k₀, v₀⟩ := hd
      by_cases h0 : k₀ = k
      · subst h0
        simp [insertA, valuesA] at h ⊢
        tauto
      · simp only [insertA, if_neg h0] at h
        simp only [valuesA, List.map_cons, List.mem_cons] at h ⊢
        rcases h with h1 | h1
        · tauto
        · rcases ih (by simpa [valuesA] using h1) with h2 | h2
          · tauto
          · simp only [valuesA] at h2
            tauto

theorem mem_valuesA_foldl_lookupStep (mode : Mode) (l : List DicomInstance)
    (m : List (String × DicomInstance)) (v : DicomInstance)
    (h : v ∈ valuesA (l.foldl (lookupStep mode) m)) :
    v ∈ valuesA m ∨ ∃ k, instanceKey mode v = .ok k := by
  induction l generalizing m with
  | nil => exact Or.inl h
  | cons i rest ih =>
      simp only [List.foldl_cons] at h
      rcases ih _ h with h' | h'
      · cases hk : instanceKey mode i with
        | ok k' =>
            rw [lookupStep] at h'
            rw [hk] at h'
            rcases mem_valuesA_insertA m k' i v h' with h'' | h''
            · subst h''; exact Or.inr ⟨k', hk⟩
            · exact Or.inl h''
        | error e =>
            rw [lookupStep] at h'
            rw [hk] at h'
            exact Or.inl h'
      · exact Or.inr h'

theorem build_skip_failed (mode : Mode) (i : DicomInstance) (e : Unit)
    (hk : instanceKey mode i = .error e) (pre post : List DicomInstance) :
    build_instance_lookup mode (pre ++ i :: post) = build_instance_lookup mode (pre ++ post) := by
  rw [build_instance_lookup_eq_foldl, build_instance_lookup_eq_foldl]
  rw [List.foldl_append, List.foldl_append, List.foldl_cons]
  congr 1
  simp [lookupStep, hk]

/-- C3: in uid and hash mode the matched keys are exactly the
intersection of the two lookup key sets, missing exactly baseline minus
comparison, extra exactly comparison minus baseline (so matched plus
missing partitions the baseline keys and matched plus extra the
comparison keys); an instance whose pixel decoding fails in hash mode is
absent from the lookup, hence from all three buckets, and the run
proceeds exactly as if the instance had not been loaded. -/
theorem claim_C3 (mode : Mode) (b c : List DicomInstance) (bf cf : String)
    (bl cl : List (String × DicomInstance)) (i : DicomInstance)
    (pre post : List DicomInstance) :
    (∀ k, k ∈ stdCommonKeys bl cl ↔ k ∈ keysA bl ∧ k ∈ keysA cl) ∧
    (∀ k, k ∈ stdMissingKeys bl cl ↔ k ∈ keysA bl ∧ k ∉ keysA cl) ∧
    (∀ k, k ∈ stdExtraKeys bl cl ↔ k ∈ keysA cl ∧ k ∉ keysA bl) ∧
    (∀ k, k ∈ keysA bl ↔ (k ∈ stdCommonKeys bl cl ∨ k ∈ stdMissingKeys bl cl)) ∧
    (∀ k, ¬ (k ∈ stdCommonKeys bl cl ∧ k ∈ stdMissingKeys bl cl)) ∧
    (∀ k, k ∈ keysA cl ↔ (k ∈ stdCommonKeys bl cl ∨ k ∈ stdExtraKeys bl cl)) ∧
    (∀ k, ¬ (k ∈ stdCommonKeys bl cl ∧ k ∈ stdExtraKeys bl cl)) ∧
    ((mode = .uid ∨ mode = .hash) →
      (compare_studies mode b c bf cf).matched_instances =
        (stdCommonKeys (build_instance_lookup mode b) (build_instance_lookup mode c)).filterMap
          (fun k =>
            match lookupA (build_instance_lookup mode b) k,
                lookupA (build_instance_lookup mode c) k with
            | some bi, some ci => some (compare_instances bi ci bf cf)
            | _, _ => none) ∧
      (compare_studies mode b c bf cf).missing_instances =
        (stdMissingKeys (build_instance_lookup mode b) (build_instance_lookup mode c)).filterMap
          (lookupA (build_instance_lookup mode b)) ∧
      (compare_studies mode b c bf cf).extra_instances =
        (stdExtraKeys (build_instance_lookup mode b) (build_instance_lookup mode c)).filterMap
          (lookupA (build_instance_lookup mode c))) ∧
    (i.pixelHash = .error () →
      i ∉ valuesA (build_instance_lookup .hash (pre ++ i :: post)) ∧
      build_instance_lookup .hash (pre ++ i :: post) =
        build_instance_lookup .hash (pre ++ post) ∧
      compare_studies .hash (pre ++ i :: post) c bf cf =
        compare_studies .hash (pre ++ post) c bf cf ∧
      compare_studies .hash b (pre ++ i :: post) bf cf =
        compare_studies .hash b (pre ++ post) bf cf) := by
  refine ⟨?_, ?_, ?_, ?_, ?_, ?_, ?_, ?_, ?_⟩
  · intro k; simp [stdCommonKeys, List.mem_filter]
  · intro k; simp [stdMissingKeys, List.mem_filter]
  · intro k; simp [stdExtraKeys, List.mem_filter]
  · intro k
    by_cases hc : k ∈ keysA cl <;>
      simp [stdCommonKeys, stdMissingKeys, List.mem_filter, hc]
  · intro k
    simp [stdCommonKeys, stdMissingKeys, List.mem_filter]
    tauto
  · intro k
    by_cases hb : k ∈ keysA bl <;>
      simp [stdCommonKeys, stdExtraKeys, List.mem_filter, hb]
  · intro k
    simp [stdCommonKeys, stdExtraKeys, List.mem_filter]
    tauto
  · rintro (rfl | rfl) <;> exact ⟨rfl, rfl, rfl⟩
  · intro hfail
    have hk : instanceKey .hash i = .error () := by
      simp [instanceKey, hfail]
    have hb2 := build_skip_failed .hash i () hk pre post
    refine ⟨?_, hb2, ?_, ?_⟩
    · intro hmem
      rcases mem_valuesA_foldl_lookupStep .hash (pre ++ i :: post) [] i
          (by rwa [build_instance_lookup_eq_foldl] at hmem) with h' | ⟨k', h'⟩
      · simp [valuesA] at h'
      · rw [hk] at h'; cases h'
    · unfold compare_studies
      rw [hb2]
    · unfold compare_studies
      rw [hb2]

/-! ## Claim C7 -/

theorem sEq_refl (x : SVal) : sEq x x = true := by
  cases x <;> simp [sEq]

theorem zipWith_sEq_self (xs : List SVal) : (List.zipWith sEq xs xs).all id = true := by
  induction xs with
  | nil => rfl
  | cons x xs ih => simp [List.zipWith, sEq_refl, ih]

theorem pyEq_refl (v : Val) : pyEq v v = true := by
  cases v <;> simp [pyEq, sEq_refl]

theorem diffForTag_keyword (b c : DicomInstance) (k : String) (d : TagDifference)
    (h : diffForTag b c k = some d) : d.tag_keyword = k ∧ k ∉ ignored_tags := by
  unfold diffForTag at h
  by_cases hig : k ∈ ignored_tags
  · rw [if_pos hig] at h; cases h
  · rw [if_neg hig] at h
    refine ⟨?_, hig⟩
    cases hb : lookupA b.tags k with
    | none =>
        cases hc : lookupA c.tags k with
        | none => rw [hb, hc] at h; cases h
        | some cv => rw [hb, hc] at h; cases h; rfl
    | some bv =>
        cases hc : lookupA c.tags k with
        | none => rw [hb, hc] at h; cases h; rfl
        | some cv =>
            rw [hb, hc] at h
            dsimp only at h
            by_cases he : pyEq bv cv = true
            · rw [if_pos he] at h; cases h
            · rw [if_neg he] at h; cases h; rfl

theorem mem_allTagsUnion_of_b (b c : DicomInstance) (k : String) (v : Val)
    (h : lookupA b.tags k = some v) : k ∈ allTagsUnion b c := by
  unfold allTagsUnion
  rw [List.mem_dedup, List.mem_append]
  exact Or.inl (lookupA_mem_keysA _ _ _ h)

theorem mem_allTagsUnion_of_c (b c : DicomInstance) (k : String) (v : Val)
    (h : lookupA c.tags k = some v) : k ∈ allTagsUnion b c := by
  unfold allTagsUnion
  rw [List.mem_dedup, List.mem_append]
  exact Or.inr (lookupA_mem_keysA _ _ _ h)

theorem keyword_nodup_of_filterMap (f : String → Option TagDifference)
    (hf : ∀ a d, f a = some d → d.tag_keyword = a) :
    ∀ L : List String, L.Nodup → ((L.filterMap f).map (fun d => d.tag_keyword)).Nodup := by
  intro L
  induction L with
  | nil => intro _; simp
  | cons a L' ih =>
      intro hnd
      rw [List.nodup_cons] at hnd
      cases hfa : f a with
      | none => simpa [List.filterMap_cons, hfa] using ih hnd.2
      | some d =>
          simp only [List.filterMap_cons, hfa, List.map_cons, List.nodup_cons]
          refine ⟨?_, ih hnd.2⟩
          intro hmem
          rw [List.mem_map] at hmem
          obtain ⟨d', hd', hkey⟩ := hmem
          rw [List.mem_filterMap] at hd'
          obtain ⟨a', ha', hfa'⟩ := hd'
          rw [hf a' d' hfa'] at hkey
          rw [hf a d hfa] at hkey
          exact hnd.1 (hkey ▸ ha')

/-- C7: the tag diff of a matched pair covers the union of both tag key
sets minus the ignore list, classifying each keyword as EXTRA_TAG
(comparison only), MISSING_TAG (baseline only), VALUE_DIFF (both, unequal
values of the same runtime type) or TYPE_DIFF (both, unequal values of
different runtime types); every reported difference is that
classification of its own keyword and each keyword appears at most once;
when the two tag maps agree outside the ignore list the diff is empty,
and is_perfect_match is true exactly when the diff is empty. -/
theorem claim_C7 (b c : DicomInstance) (bf cf : String) (k : String) (v w : Val) :
    ((k ∉ ignored_tags ∧ lookupA b.tags k = none ∧ lookupA c.tags k = some w) →
      (⟨k, k, none, some w, .EXTRA_TAG, "UK"⟩ : TagDifference) ∈
        (compare_instances b c bf cf).tag_differences) ∧
    ((k ∉ ignored_tags ∧ lookupA b.tags k = some v ∧ lookupA c.tags k = none) →
      (⟨k, k, some v, none, .MISSING_TAG, "UK"⟩ : TagDifference) ∈
        (compare_instances b c bf cf).tag_differences) ∧
    ((k ∉ ignored_tags ∧ lookupA b.tags k = some v ∧ lookupA c.tags k = some w ∧
        pyEq v w = false ∧ v.vtype = w.vtype) →
      (⟨k, k, some v, some w, .VALUE_DIFF, "UK"⟩ : TagDifference) ∈
        (compare_instances b c bf cf).tag_differences) ∧
    ((k ∉ ignored_tags ∧ lookupA b.tags k = some v ∧ lookupA c.tags k = some w ∧
        pyEq v w = false ∧ v.vtype ≠ w.vtype) →
      (⟨k, k, some v, some w, .TYPE_DIFF, "UK"⟩ : TagDifference) ∈
        (compare_instances b c bf cf).tag_differences) ∧
    (∀ d ∈ (compare_instances b c bf cf).tag_differences,
      d.tag_keyword ∉ ignored_tags ∧ diffForTag b c d.tag_keyword = some d) ∧
    (((compare_instances b c bf cf).tag_differences.map (fun d => d.tag_keyword)).Nodup) ∧
    ((∀ k', k' ∉ ignored_tags → lookupA b.tags k' = lookupA c.tags k') →
      (compare_instances b c bf cf).tag_differences = []) ∧
    ((compare_instances b c bf cf).is_perfect_match = true ↔
      (compare_instances b c bf cf).tag_differences = []) := by
  refine ⟨?_, ?_, ?_, ?_, ?_, ?_, ?_, ?_⟩
  · rintro ⟨hig, hb, hc⟩
    show _ ∈ (allTagsUnion b c).filterMap (diffForTag b c)
    rw [List.mem_filterMap]
    exact ⟨k, mem_allTagsUnion_of_c b c k w hc, by simp [diffForTag, hig, hb, hc]⟩
  · rintro ⟨hig, hb, hc⟩
    show _ ∈ (allTagsUnion b c).filterMap (diffForTag b c)
    rw [List.mem_filterMap]
    exact ⟨k, mem_allTagsUnion_of_b b c k v hb, by simp [diffForTag, hig, hb, hc]⟩
  · rintro ⟨hig, hb, hc, hne, hty⟩
    show _ ∈ (allTagsUnion b c).filterMap (diffForTag b c)
    rw [List.mem_filterMap]
    refine ⟨k, mem_allTagsUnion_of_b b c k v hb, ?_⟩
    simp [diffForTag, hig, hb, hc, hne, hty]
  · rintro ⟨hig, hb, hc, hne, hty⟩
    show _ ∈ (allTagsUnion b c).filterMap (diffForTag b c)
    rw [List.mem_filterMap]
    refine ⟨k, mem_allTagsUnion_of_b b c k v hb, ?_⟩
    simp [diffForTag, hig, hb, hc, hne, hty]
  · intro d hd
    replace hd : d ∈ (allTagsUnion b c).filterMap (diffForTag b c) := hd
    rw [List.mem_filterMap] at hd
    obtain ⟨a, _, hfa⟩ := hd
    have hk := diffForTag_keyword b c a d hfa
    rw [hk.1]
    exact ⟨hk.2, hfa⟩
  · exact keyword_nodup_of_filterMap (diffForTag b c)
      (fun a d h => (diffForTag_keyword b c a d h).1) (allTagsUnion b c)
      (List.nodup_dedup _)
  · intro hagree
    show (allTagsUnion b c).filterMap (diffForTag b c) = []
    rw [List.filterMap_eq_nil_iff]
    intro a _
    unfold diffForTag
    by_cases hig : a ∈ ignored_tags
    · rw [if_pos hig]
    · rw [if_neg hig]
      rw [← hagree a hig]
      cases ha : lookupA b.tags a with
      | none => rfl
      | some x => simp [pyEq_refl]
  · show ((allTagsUnion b c).filterMap (diffForTag b c)).isEmpty = true ↔ _
    rw [List.isEmpty_iff]
    exact Iff.rfl

/-! ## Claim C6 -/

theorem try_metadata_matching_known (inst : DicomInstance) (s : String)
    (hs : s ∈ knownStrategyNames) :
    try_metadata_matching inst s =
      match (match strategyKeyE s inst with | .ok o => o | .error _ => none) with
      | some k => ⟨true, s, strategyConfidence s, k, strategyDescription s⟩
      | none => ⟨false, s, 0, "", "Required tags missing for " ++ strategyDescription s⟩ := by
  simp only [knownStrategyNames, List.mem_cons, List.mem_singleton] at hs
  rcases hs with rfl | rfl | rfl | rfl | rfl | h
  · simp [try_metadata_matching, strategyKeyE, create_spatial_key, knownStrategyNames]
  · simp [try_metadata_matching, strategyKeyE, create_acquisition_key, knownStrategyNames]
  · simp [try_metadata_matching, strategyKeyE, create_position_key, knownStrategyNames]
  · simp [try_metadata_matching, strategyKeyE, create_sequence_key, knownStrategyNames]
  · simp [try_metadata_matching, strategyKeyE, create_dimensional_key, knownStrategyNames]
  · cases h

/-- C6: each metadata strategy yields, on success, exactly its fixed
confidence (spatial 0.95, acquisition 0.85, position 0.90, sequence
0.75, dimensional 0.70); a derivation returning a key yields the
successful MatchResult carrying it, a derivation returning no key (and
in particular any strategy whose required tags are absent) or raising an
exception yields the failed MatchResult with success false, confidence
0.0 and empty key - the exception is never propagated. -/
theorem claim_C6 (inst : DicomInstance) (s : String) :
    ((try_metadata_matching inst "spatial").success = true →
      (try_metadata_matching inst "spatial").confidence = 0.95) ∧
    ((try_metadata_matching inst "acquisition").success = true →
      (try_metadata_matching inst "acquisition").confidence = 0.85) ∧
    ((try_metadata_matching inst "position").success = true →
      (try_metadata_matching inst "position").confidence = 0.90) ∧
    ((try_metadata_matching inst "sequence").success = true →
      (try_metadata_matching inst "sequence").confidence = 0.75) ∧
    ((try_metadata_matching inst "dimensional").success = true →
      (try_metadata_matching inst "dimensional").confidence = 0.70) ∧
    (s ∈ knownStrategyNames →
      (∀ k, strategyKeyE s inst = .ok (some k) →
        try_metadata_matching inst s =
          ⟨true, s, strategyConfidence s, k, strategyDescription s⟩) ∧
      (strategyKeyE s inst = .ok none →
        (try_metadata_matching inst s).success = false ∧
        (try_metadata_matching inst s).confidence = 0 ∧
        (try_metadata_matching inst s).match_key = "") ∧
      (strategyKeyE s inst = .error () →
        (try_metadata_matching inst s).success = false ∧
        (try_metadata_matching inst s).confidence = 0 ∧
        (try_metadata_matching inst s).match_key = "")) ∧
    (safe_get_tag inst "SliceLocation" = none →
      (try_metadata_matching inst "spatial").success = false ∧
      (try_metadata_matching inst "spatial").confidence = 0 ∧
      (try_metadata_matching inst "spatial").match_key = "") ∧
    ((safe_get_tag inst "SeriesNumber" = none ∨ safe_get_tag inst "InstanceNumber" = none) →
      (try_metadata_matching inst "acquisition").success = false ∧
      (try_metadata_matching inst "acquisition").confidence = 0 ∧
      (try_metadata_matching inst "acquisition").match_key = "") ∧
    (safe_get_tag inst "ImagePositionPatient" = none →
      (try_metadata_matching inst "position").success = false ∧
      (try_metadata_matching inst "position").confidence = 0 ∧
      (try_metadata_matching inst "position").match_key = "") ∧
    ((safe_get_tag inst "EchoTime" = none ∧ safe_get_tag inst "RepetitionTime" = none ∧
        safe_get_tag inst "FlipAngle" = none) →
      (try_metadata_matching inst "sequence").success = false ∧
      (try_metadata_matching inst "sequence").confidence = 0 ∧
      (try_metadata_matching inst "sequence").match_key = "") ∧
    ((safe_get_tag inst "Rows" = none ∨ safe_get_tag inst "Columns" = none) →
      (try_metadata_matching inst "dimensional").success = false ∧
      (try_metadata_matching inst "dimensional").confidence = 0 ∧
      (try_metadata_matching inst "dimensional").match_key = "") := by
  have hknown : ∀ t : String, t ∈ knownStrategyNames →
      (∀ k, strategyKeyE t inst = .ok (some k) →
        try_metadata_matching inst t =
          ⟨true, t, strategyConfidence t, k, strategyDescription t⟩) ∧
      (strategyKeyE t inst = .ok none →
        (try_metadata_matching inst t).success = false ∧
        (try_metadata_matching inst t).confidence = 0 ∧
        (try_metadata_matching inst t).match_key = "") ∧
      (strategyKeyE t inst = .error () →
        (try_metadata_matching inst t).success = false ∧
        (try_metadata_matching inst t).confidence = 0 ∧
        (try_metadata_matching inst t).match_key = "") := by
    intro t ht
    rw [try_metadata_matching_known inst t ht]
    refine ⟨?_, ?_, ?_⟩
    · intro k hk; rw [hk]
    · intro hk; rw [hk]; exact ⟨rfl, rfl, rfl⟩
    · intro hk; rw [hk]; exact ⟨rfl, rfl, rfl⟩
  have hconf : ∀ t : String, t ∈ knownStrategyNames →
      (try_metadata_matching inst t).success = true →
      (try_metadata_matching inst t).confidence = strategyConfidence t := by
    intro t ht
    rw [try_metadata_matching_known inst t ht]
    cases hk : (match strategyKeyE t inst with | .ok o => o | .error _ => none) with
    | some k => intro _; rfl
    | none => intro h; cases h
  refine ⟨?_, ?_, ?_, ?_, ?_, hknown s, ?_, ?_, ?_, ?_, ?_⟩
  · intro h
    rw [hconf "spatial" (by decide) h]
    simp [strategyConfidence]
  · intro h
    rw [hconf "acquisition" (by decide) h]
    simp [strategyConfidence]
  · intro h
    rw [hconf "position" (by decide) h]
    simp [strategyConfidence]
  · intro h
    rw [hconf "sequence" (by decide) h]
    simp [strategyConfidence]
  · intro h
    rw [hconf "dimensional" (by decide) h]
    simp [strategyConfidence]
  · intro h
    refine (hknown "spatial" (by decide)).2.1 ?_
    simp [create_spatial_keyE, strategyKeyE, h]
  · intro h
    refine (hknown "acquisition" (by decide)).2.1 ?_
    rcases h with h | h <;>
      cases h2 : safe_get_tag inst "SeriesNumber" <;>
      cases h3 : safe_get_tag inst "InstanceNumber" <;>
      simp_all [create_acquisition_keyE, strategyKeyE]
  · intro h
    refine (hknown "position" (by decide)).2.1 ?_
    simp [create_position_keyE, strategyKeyE, h]
  · intro h
    refine (hknown "sequence" (by decide)).2.1 ?_
    simp [create_sequence_keyE, strategyKeyE, h.1, h.2.1, h.2.2]
  · intro h
    refine (hknown "dimensional" (by decide)).2.1 ?_
    have hd : strategyKeyE "dimensional" inst = create_dimensional_keyE inst := by
      simp [strategyKeyE]
    rw [hd]
    unfold create_dimensional_keyE
    rcases h with h | h
    · rw [h]
    · rw [h]
      cases hr : safe_get_tag inst "Rows" <;> rfl

/-! ## Claim C2 -/

theorem fpScanFirst_not_used (bfp : Fingerprint) (used : List String) :
    ∀ (l : List (String × DicomInstance)) (ck : String) (ci : DicomInstance),
      fpScanFirst bfp used l = some (ck, ci) → ck ∉ used := by
  intro l
  induction l with
  | nil => intro ck ci h; cases h
  | cons p rest ih =>
      obtain ⟨k0, i0⟩ := p
      intro ck ci h
      by_cases hu : k0 ∈ used
      · rw [fpScanFirst, if_pos hu] at h
        exact ih ck ci h
      · rw [fpScanFirst, if_neg hu] at h
        cases hfp : getFp i0 with
        | none => rw [hfp] at h; exact ih ck ci h
        | some cfp =>
            rw [hfp] at h
            dsimp only at h
            by_cases hm : fingerprints_match bfp cfp = true
            · rw [if_pos hm] at h
              cases h
              exact hu
            · rw [if_neg hm] at h
              exact ih ck ci h

theorem fpExactCheck_not_used (comp : List (String × DicomInstance)) (used : List String)
    (bk : String) (bfp : Fingerprint) (ck : String) (ci : DicomInstance)
    (h : fpExactCheck comp used bk bfp = some (ck, ci)) : ck ∉ used := by
  unfold fpExactCheck at h
  by_cases hu : bk ∈ used
  · rw [if_pos hu] at h; cases h
  · rw [if_neg hu] at h
    cases hl : lookupA comp bk with
    | none => rw [hl] at h; cases h
    | some ci0 =>
        rw [hl] at h
        dsimp only at h
        cases hfp : getFp ci0 with
        | none => rw [hfp] at h; cases h
        | some cfp =>
            rw [hfp] at h
            dsimp only at h
            by_cases hm : fingerprints_match bfp cfp = true
            · rw [if_pos hm] at h; cases h; exact hu
            · rw [if_neg hm] at h; cases h

theorem fpGo_fresh_and_nodup (comp : List (String × DicomInstance)) :
    ∀ (bs : List (String × DicomInstance)) (used : List String),
      (∀ p ∈ fpGo comp bs used, p.comparison_key ∉ used) ∧
      ((fpGo comp bs used).map (fun p => p.comparison_key)).Nodup := by
  intro bs
  induction bs with
  | nil => intro used; simp [fpGo]
  | cons p rest ih =>
      obtain ⟨bk, bi⟩ := p
      intro used
      rw [fpGo]
      cases hfp : getFp bi with
      | none => dsimp only; exact ih used
      | some bfp =>
          dsimp only
          cases hfound : (match fpExactCheck comp used bk bfp with
                          | some r => some r
                          | none => fpScanFirst bfp used comp) with
          | none => dsimp only; exact ih used
          | some r =>
              obtain ⟨ck, ci⟩ := r
              dsimp only
              have hck : ck ∉ used := by
                cases hex : fpExactCheck comp used bk bfp with
                | some r' =>
                    rw [hex] at hfound
                    cases hfound
                    exact fpExactCheck_not_used comp used bk bfp ck ci hex
                | none =>
                    rw [hex] at hfound
                    exact fpScanFirst_not_used bfp used comp ck ci hfound
              have hrest := ih (ck :: used)
              constructor
              · intro q hq
                rcases List.mem_cons.mp hq with rfl | hq'
                · exact hck
                · have := hrest.1 q hq'
                  intro hmem
                  exact this (List.mem_cons_of_mem _ hmem)
              · rw [List.map_cons, List.nodup_cons]
                refine ⟨?_, hrest.2⟩
                intro hmem
                rw [List.mem_map] at hmem
                obtain ⟨q, hq, hqk⟩ := hmem
                exact hrest.1 q hq (hqk ▸ List.mem_cons_self _ _)

theorem hashScan_not_used (bh : String) (used : List String) :
    ∀ (l : List (String × DicomInstance)) (cu : String) (ci : DicomInstance),
      hashScan bh used l = some (cu, ci) → cu ∉ used := by
  intro l
  induction l with
  | nil => intro cu ci h; cases h
  | cons p rest ih =>
      obtain ⟨k0, i0⟩ := p
      intro cu ci h
      by_cases hu : k0 ∈ used
      · rw [hashScan, if_pos hu] at h
        exact ih cu ci h
      · rw [hashScan, if_neg hu] at h
        cases hh : i0.pixelHash with
        | error e => rw [hh] at h; cases h
        | ok ch =>
            rw [hh] at h
            dsimp only at h
            by_cases he : ch = bh
            · rw [if_pos he] at h; cases h; exact hu
            · rw [if_neg he] at h; exact ih cu ci h

theorem fpScanSmart_not_used (bfp : Fingerprint) (used : List String) :
    ∀ (l : List (String × DicomInstance)) (cu : String) (ci : DicomInstance),
      fpScanSmart bfp used l = some (cu, ci) → cu ∉ used := by
  intro l
  induction l with
  | nil => intro cu ci h; cases h
  | cons p rest ih =>
      obtain ⟨k0, i0⟩ := p
      intro cu ci h
      by_cases hu : k0 ∈ used
      · rw [fpScanSmart, if_pos hu] at h
        exact ih cu ci h
      · rw [fpScanSmart, if_neg hu] at h
        cases hh : i0.pixelFingerprint with
        | error e => rw [hh] at h; cases h
        | ok cfp =>
            rw [hh] at h
            dsimp only at h
            by_cases hm : fingerprints_match bfp cfp = true
            · rw [if_pos hm] at h; cases h; exact hu
            · rw [if_neg hm] at h; exact ih cu ci h

theorem firstUnused_not_used (used : List String) :
    ∀ (l : List (String × DicomInstance × ℚ)) (cu : String) (ci : DicomInstance) (cf : ℚ),
      firstUnused used l = some (cu, ci, cf) → cu ∉ used := by
  intro l
  induction l with
  | nil => intro cu ci cf h; cases h
  | cons p rest ih =>
      obtain ⟨k0, i0, c0⟩ := p
      intro cu ci cf h
      by_cases hu : k0 ∈ used
      · rw [firstUnused, if_pos hu] at h
        exact ih cu ci cf h
      · rw [firstUnused, if_neg hu] at h
        cases h
        exact hu

theorem smartStep_buid_not_used (comp : List (String × DicomInstance))
    (lookups : List (String × List (String × List (String × DicomInstance × ℚ))))
    (used : List String) (b : DicomInstance) (s : Strategy) (st : Best)
    (hst : ∀ u, st.buid = some u → u ∉ used) :
    ∀ u, (smartStep comp lookups used b s st).buid = some u → u ∉ used := by
  intro u hu
  cases s
  case pixel_hash =>
      unfold smartStep pixelHashStep at hu
      dsimp only at hu
      cases hh : b.pixelHash with
      | error e => rw [hh] at hu; exact hst u hu
      | ok bh =>
          rw [hh] at hu
          dsimp only at hu
          cases hs : hashScan bh used comp with
          | none => rw [hs] at hu; exact hst u hu
          | some r =>
              obtain ⟨cu, ci⟩ := r
              rw [hs] at hu
              dsimp only at hu
              cases hu
              exact hashScan_not_used bh used comp _ _ hs
  case pixel_fingerprint =>
      unfold smartStep pixelFpStep at hu
      dsimp only at hu
      cases hh : b.pixelFingerprint with
      | error e => rw [hh] at hu; exact hst u hu
      | ok bfp =>
          rw [hh] at hu
          dsimp only at hu
          cases hs : fpScanSmart bfp used comp with
          | none => rw [hs] at hu; exact hst u hu
          | some r =>
              obtain ⟨cu, ci⟩ := r
              rw [hs] at hu
              dsimp only at hu
              cases hu
              exact fpScanSmart_not_used bfp used comp _ _ hs
  all_goals {
    unfold smartStep metadataStep at hu
    dsimp only at hu
    set r := try_metadata_matching b _ with hr
    by_cases hsucc : r.success = true
    case neg =>
      rw [if_neg hsucc] at hu
      exact hst u hu
    case pos =>
      rw [if_pos hsucc] at hu
      cases hl : lookupA lookups _ with
      | none => rw [hl] at hu; exact hst u hu
      | some tbl =>
          rw [hl] at hu
          dsimp only at hu
          cases hl2 : lookupA tbl r.match_key with
          | none => rw [hl2] at hu; exact hst u hu
          | some candidates =>
              rw [hl2] at hu
              dsimp only at hu
              cases hf : firstUnused used candidates with
              | none => rw [hf] at hu; exact hst u hu
              | some c =>
                  obtain ⟨cu, ci, cf⟩ := c
                  rw [hf] at hu
                  dsimp only at hu
                  by_cases hlt : st.bconfidence < cf
                  · rw [if_pos hlt] at hu
                    dsimp only at hu
                    cases hu
                    exact firstUnused_not_used used candidates _ _ _ hf
                  · rw [if_neg hlt] at hu
                    exact hst u hu
  }

theorem smartLoop_buid_not_used (comp : List (String × DicomInstance))
    (lookups : List (String × List (String × List (String × DicomInstance × ℚ))))
    (used : List String) (b : DicomInstance) :
    ∀ (L : List Strategy) (st : Best), (∀ u, st.buid = some u → u ∉ used) →
      ∀ u, (smartLoop comp lookups used b L st).buid = some u → u ∉ used := by
  intro L
  induction L with
  | nil => intro st hst u hu; exact hst u hu
  | cons s rest ih =>
      intro st hst u hu
      rw [smartLoop] at hu
      by_cases hc : (0.95 : ℚ) ≤ (smartStep comp lookups used b s st).bconfidence
      · rw [if_pos hc] at hu
        exact smartStep_buid_not_used comp lookups used b s st hst u hu
      · rw [if_neg hc] at hu
        exact ih _ (smartStep_buid_not_used comp lookups used b s st hst) u hu

theorem smartGo_fresh_and_nodup (comp : List (String × DicomInstance))
    (lookups : List (String × List (String × List (String × DicomInstance × ℚ)))) :
    ∀ (bs : List (String × DicomInstance)) (used : List String),
      (∀ p ∈ smartGo comp lookups bs used, p.comparison_uid ∉ used) ∧
      ((smartGo comp lookups bs used).map (fun p => p.comparison_uid)).Nodup := by
  intro bs
  induction bs with
  | nil => intro used; simp [smartGo]
  | cons p rest ih =>
      obtain ⟨bu, bi⟩ := p
      intro used
      rw [smartGo]
      cases hm : (smartLoop comp lookups used bi smartStrategies initBest).bmatch with
      | none => dsimp only; exact ih used
      | some ci =>
          cases hu : (smartLoop comp lookups used bi smartStrategies initBest).buid with
          | none => dsimp only; exact ih used
          | some cu =>
              dsimp only
              have hcu : cu ∉ used :=
                smartLoop_buid_not_used comp lookups used bi smartStrategies initBest
                  (by intro u h; cases h) cu hu
              have hrest := ih (cu :: used)
              constructor
              · intro q hq
                rcases List.mem_cons.mp hq with rfl | hq'
                · exact hcu
                · have := hrest.1 q hq'
                  intro hmem
                  exact this (List.mem_cons_of_mem _ hmem)
              · rw [List.map_cons, List.nodup_cons]
                refine ⟨?_, hrest.2⟩
                intro hmem
                rw [List.mem_map] at hmem
                obtain ⟨q, hq, hqk⟩ := hmem
                exact hrest.1 q hq (hqk ▸ List.mem_cons_self _ _)

/-- C2: within one reconciliation call, in fingerprint mode and in smart
mode no comparison instance key/uid is consumed by more than one accepted
pairing: the consumed keys of the produced pairings are pairwise
distinct. -/
theorem claim_C2 (baseline comp : List (String × DicomInstance)) :
    ((match_by_fingerprint baseline comp).map (fun p => p.comparison_key)).Nodup ∧
    ((match_with_smart_strategy baseline comp).map (fun p => p.comparison_uid)).Nodup := by
  constructor
  · exact (fpGo_fresh_and_nodup comp baseline []).2
  · exact (smartGo_fresh_and_nodup comp (buildStrategyLookups comp) baseline []).2

/-! ## Claim C5 -/

theorem keysA_sopDict_aux (l : List DicomInstance) :
    ∀ (m : List (String × DicomInstance)) (u : String),
      u ∈ keysA (l.foldl (fun m i => insertA m i.sop_instance_uid i) m) ↔
        (∃ i ∈ l, i.sop_instance_uid = u) ∨ u ∈ keysA m := by
  induction l with
  | nil => intro m u; simp
  | cons i rest ih =>
      intro m u
      simp only [List.foldl_cons]
      rw [ih]
      have := keysA_insertA m i.sop_instance_uid i u
      constructor
      · rintro (⟨j, hj, hju⟩ | hm)
        · exact Or.inl ⟨j, List.mem_cons_of_mem _ hj, hju⟩
        · rcases this.mp hm with h' | h'
          · exact Or.inl ⟨i, List.mem_cons_self _ _, h'.symm⟩
          · exact Or.inr h'
      · rintro (⟨j, hj, hju⟩ | hm)
        · rcases List.mem_cons.mp hj with rfl | hj'
          · exact Or.inr (this.mpr (Or.inl hju.symm))
          · exact Or.inl ⟨j, hj', hju⟩
        · exact Or.inr (this.mpr (Or.inr hm))

theorem keysA_sopDict (l : List DicomInstance) (u : String) :
    u ∈ keysA (sopDict l) ↔ ∃ i ∈ l, i.sop_instance_uid = u := by
  unfold sopDict
  rw [keysA_sopDict_aux]
  simp [keysA]

/-- C5 (amended): in fingerprint mode, missing is exactly the baseline
SOP uids (of the lookup's values) not consumed by any accepted pairing;
extra, however, is the comparison SOP uids minus the set found by an
after-the-fact rescan (`fpRescanOne`) that takes, for each accepted
pairing, the first comparison instance whose fingerprint matches the
first baseline instance bearing the pairing's SOP uid - which need not
be the instance the pairing consumed. -/
theorem claim_C5 (bl cl : List (String × DicomInstance)) (u : String)
    (b c : List DicomInstance) (bf cf : String) :
    (u ∈ fingerprintMissingSops bl cl ↔
      u ∈ keysA (sopDict (valuesA bl)) ∧
      ∀ p ∈ match_by_fingerprint bl cl, p.baseline.sop_instance_uid ≠ u) ∧
    (u ∈ keysA (sopDict (valuesA bl)) ↔ ∃ i ∈ valuesA bl, i.sop_instance_uid = u) ∧
    (u ∈ fingerprintExtraSops bl cl ↔
      u ∈ keysA (sopDict (valuesA cl)) ∧
      u ∉ fpComparisonMatched bl cl (match_by_fingerprint bl cl)) ∧
    (compare_studies .fingerprint b c bf cf).missing_instances =
      (fingerprintMissingSops (build_instance_lookup .fingerprint b)
          (build_instance_lookup .fingerprint c)).filterMap
        (lookupA (sopDict (valuesA (build_instance_lookup .fingerprint b)))) ∧
    (compare_studies .fingerprint b c bf cf).extra_instances =
      (fingerprintExtraSops (build_instance_lookup .fingerprint b)
          (build_instance_lookup .fingerprint c)).filterMap
        (lookupA (sopDict (valuesA (build_instance_lookup .fingerprint c)))) := by
  refine ⟨?_, keysA_sopDict _ u, ?_, rfl, rfl⟩
  · rw [fingerprintMissingSops, List.mem_filter]
    simp only [decide_eq_true_eq, fpBaselineMatched, List.mem_map]
    constructor
    · rintro ⟨hk, hnm⟩
      refine ⟨hk, fun p hp hpu => hnm ⟨p, hp, hpu⟩⟩
    · rintro ⟨hk, hall⟩
      refine ⟨hk, fun hex => ?_⟩
      obtain ⟨p, hp, hpu⟩ := hex
      exact hall p hp hpu
  · rw [fingerprintExtraSops, List.mem_filter]
    simp [decide_eq_true_eq]

/-- Fingerprint keys of the two counterexample fingerprints. -/
theorem cex_key_G1 : create_fingerprint_key cexFpG1 = "2_0_0_0_0" := by
  have hm : round (cexFpG1.mean * (10:ℚ)^3) = 0 := by norm_num [cexFpG1]
  have hs : round (cexFpG1.std * (10:ℚ)^3) = 0 := by norm_num [cexFpG1]
  unfold create_fingerprint_key fmtFixed
  rw [hm, hs]
  decide

theorem cex_key_G2 : create_fingerprint_key cexFpG2 = "2_10000_0_0_0" := by
  have hm : round (cexFpG2.mean * (10:ℚ)^3) = 10000 := by norm_num [cexFpG2]
  have hs : round (cexFpG2.std * (10:ℚ)^3) = 0 := by norm_num [cexFpG2]
  unfold create_fingerprint_key fmtFixed
  rw [hm, hs]
  decide

theorem cex_match_G1_G2 : fingerprints_match cexFpG1 cexFpG2 = false := by
  unfold fingerprints_match
  rw [if_neg (show ¬ cexFpG1.shape ≠ cexFpG2.shape by decide)]
  rw [if_pos (show |cexFpG1.mean - cexFpG2.mean| > tolQ by norm_num [cexFpG1, cexFpG2, tolQ])]

theorem cex_match_G2_G2 : fingerprints_match cexFpG2 cexFpG2 = true := by
  unfold fingerprints_match
  rw [if_neg (show ¬ cexFpG2.shape ≠ cexFpG2.shape by decide)]
  rw [if_neg (show ¬ |cexFpG2.mean - cexFpG2.mean| > tolQ by norm_num [cexFpG2, tolQ])]
  rw [if_neg (show ¬ |cexFpG2.std - cexFpG2.std| > tolQ by norm_num [cexFpG2, tolQ])]
  rw [if_neg (show ¬ |cexFpG2.min - cexFpG2.min| > tolQ by norm_num [cexFpG2, tolQ])]
  rw [if_neg (show ¬ |cexFpG2.max - cexFpG2.max| > tolQ by norm_num [cexFpG2, tolQ])]
  rw [if_neg (show ¬ |cexFpG2.median - cexFpG2.median| > tolQ by norm_num [cexFpG2, tolQ])]
  rw [if_neg (show ¬ histNaN cexFpG2.histogram cexFpG2.histogram = true by decide)]
  rw [if_neg (show ¬ ¬ histCorrGe999 cexFpG2.histogram cexFpG2.histogram = true by decide)]

theorem cexBl_eval : cexBl = [("2_0_0_0_0", cexB1), ("2_10000_0_0_0", cexB2)] := by
  unfold cexBl build_instance_lookup
  simp only [List.foldl_cons, List.foldl_nil, instanceKey, cexB1, cexB2, Except.map,
    cex_key_G1, cex_key_G2]
  decide

theorem cexCl_eval : cexCl = [("2_10000_0_0_0", cexC1)] := by
  unfold cexCl build_instance_lookup
  simp only [List.foldl_cons, List.foldl_nil, instanceKey, cexC1, Except.map, cex_key_G2]
  decide

theorem cex_exact_b1 :
    fpExactCheck [("2_10000_0_0_0", cexC1)] [] "2_0_0_0_0" cexFpG1 = none := by
  unfold fpExactCheck
  rw [if_neg (show ¬ ("2_0_0_0_0" : String) ∈ ([] : List String) by decide)]
  rw [show lookupA [("2_10000_0_0_0", cexC1)] "2_0_0_0_0" = none by decide]

theorem cex_scan_b1 : fpScanFirst cexFpG1 [] [("2_10000_0_0_0", cexC1)] = none := by
  rw [fpScanFirst]
  rw [if_neg (show ¬ ("2_10000_0_0_0" : String) ∈ ([] : List String) by decide)]
  rw [show getFp cexC1 = some cexFpG2 from rfl]
  dsimp only
  rw [if_neg (by rw [cex_match_G1_G2]; decide)]
  rw [fpScanFirst]

theorem cex_exact_b2 :
    fpExactCheck [("2_10000_0_0_0", cexC1)] [] "2_10000_0_0_0" cexFpG2 =
      some ("2_10000_0_0_0", cexC1) := by
  unfold fpExactCheck
  rw [if_neg (show ¬ ("2_10000_0_0_0" : String) ∈ ([] : List String) by decide)]
  rw [show lookupA [("2_10000_0_0_0", cexC1)] "2_10000_0_0_0" = some cexC1 by decide]
  dsimp only
  rw [show getFp cexC1 = some cexFpG2 from rfl]
  dsimp only
  rw [if_pos (show fingerprints_match cexFpG2 cexFpG2 = true from cex_match_G2_G2)]

theorem cex_pairs_eval :
    match_by_fingerprint cexBl cexCl = [⟨cexB2, cexC1, "2_10000_0_0_0"⟩] := by
  rw [match_by_fingerprint, cexBl_eval, cexCl_eval]
  rw [fpGo]
  rw [show getFp cexB1 = some cexFpG1 from rfl]
  dsimp only
  rw [cex_exact_b1, cex_scan_b1]
  dsimp only
  rw [fpGo]
  rw [show getFp cexB2 = some cexFpG2 from rfl]
  dsimp only
  rw [cex_exact_b2]
  dsimp only
  rw [fpGo]

theorem cex_rescan_eval :
    fpComparisonMatched cexBl cexCl (match_by_fingerprint cexBl cexCl) = [] := by
  rw [cex_pairs_eval, cexBl_eval, cexCl_eval]
  rw [fpComparisonMatched]
  simp only [List.foldl_cons, List.foldl_nil]
  rw [show fpRescanOne [("2_0_0_0_0", cexB1), ("2_10000_0_0_0", cexB2)]
      ((⟨cexB2, cexC1, "2_10000_0_0_0"⟩ : FpPair)).baseline.sop_instance_uid
      [("2_10000_0_0_0", cexC1)] = none by
    rw [fpRescanOne]
    rw [show getFp cexC1 = some cexFpG2 from rfl]
    dsimp only
    rw [show firstBaselineWithSop [("2_0_0_0_0", cexB1), ("2_10000_0_0_0", cexB2)]
        cexB2.sop_instance_uid = some cexB1 by decide]
    dsimp only
    rw [show getFp cexB1 = some cexFpG1 from rfl]
    dsimp only
    rw [if_neg (by rw [cex_match_G1_G2]; decide)]
    rw [fpRescanOne]]

/-- Counterexample for C5 as frozen: one baseline pairing consumes the
only comparison instance (SOP uid "c1"), yet the rescan fails to
recognise it (it compares against the first baseline instance bearing
the paired SOP uid, which is a different instance), so "c1" is reported
extra even though it was consumed - extra is not the set of
not-consumed comparison SOP uids. -/
theorem claim_C5_cex :
    (match_by_fingerprint cexBl cexCl).map (fun p => p.comp.sop_instance_uid) = ["c1"] ∧
    fpComparisonMatched cexBl cexCl (match_by_fingerprint cexBl cexCl) = [] ∧
    fingerprintExtraSops cexBl cexCl = ["c1"] := by
  refine ⟨?_, cex_rescan_eval, ?_⟩
  · rw [cex_pairs_eval]
    decide
  · rw [fingerprintExtraSops]
    rw [cex_rescan_eval]
    rw [cexCl_eval]
    decide

/-! ## Claim C1 -/

theorem smartFold_eq (comp : List (String × DicomInstance))
    (lookups : List (String × List (String × List (String × DicomInstance × ℚ))))
    (used : List String) (b : DicomInstance) (L : List Strategy) :
    smartFold comp lookups used b L =
      L.foldl (fun st s => smartStep comp lookups used b s st) initBest := rfl

theorem smartLoop_spec (comp : List (String × DicomInstance))
    (lookups : List (String × List (String × List (String × DicomInstance × ℚ))))
    (used : List String) (b : DicomInstance) :
    ∀ (L : List Strategy) (st0 : Best), st0.bconfidence < 0.95 →
      ∃ P suffix : List Strategy,
        L = P ++ suffix ∧
        smartLoop comp lookups used b L st0 =
          P.foldl (fun st s => smartStep comp lookups used b s st) st0 ∧
        (suffix ≠ [] →
          (0.95 : ℚ) ≤
            (P.foldl (fun st s => smartStep comp lookups used b s st) st0).bconfidence) ∧
        (∀ Q, Q <+: P → Q ≠ P →
          (Q.foldl (fun st s => smartStep comp lookups used b s st) st0).bconfidence < 0.95) := by
  intro L
  induction L with
  | nil =>
      intro st0 h0
      refine ⟨[], [], rfl, rfl, fun h => absurd rfl h, ?_⟩
      intro Q hQ hne
      rw [List.prefix_nil] at hQ
      exact absurd hQ hne
  | cons s rest ih =>
      intro st0 h0
      by_cases hc : (0.95 : ℚ) ≤ (smartStep comp lookups used b s st0).bconfidence
      · refine ⟨[s], rest, rfl, ?_, fun _ => by simpa using hc, ?_⟩
        · rw [smartLoop, if_pos hc]
          simp
        · intro Q hQ hne
          obtain ⟨t, ht⟩ := hQ
          cases Q with
          | nil => simpa using h0
          | cons q Q' =>
              rw [List.cons_append] at ht
              injection ht with h1 h2
              rcases List.append_eq_nil.mp h2 with ⟨rfl, rfl⟩
              exact absurd (by rw [h1]) hne
      · have h' : (smartStep comp lookups used b s st0).bconfidence < 0.95 := not_le.mp hc
        obtain ⟨P', suffix, hL, hloop, h3, h4⟩ := ih (smartStep comp lookups used b s st0) h'
        refine ⟨s :: P', suffix, by rw [List.cons_append, ← hL], ?_, ?_, ?_⟩
        · rw [smartLoop, if_neg hc, List.foldl_cons]
          exact hloop
        · intro hs
          rw [List.foldl_cons]
          exact h3 hs
        · intro Q hQ hne
          obtain ⟨t, ht⟩ := hQ
          cases Q with
          | nil => simpa using h0
          | cons q Q' =>
              rw [List.cons_append] at ht
              injection ht with h1 h2
              subst h1
              rw [List.foldl_cons]
              refine h4 Q' ⟨t, h2⟩ ?_
              intro hq
              subst hq
              exact hne rfl

theorem smartStep_strict (comp : List (String × DicomInstance))
    (lookups : List (String × List (String × List (String × DicomInstance × ℚ))))
    (used : List String) (b : DicomInstance) (s : Strategy) (st : Best)
    (h : st.bconfidence < 0.95)
    (hch : (smartStep comp lookups used b s st).buid ≠ st.buid) :
    st.bconfidence < (smartStep comp lookups used b s st).bconfidence := by
  cases s
  case pixel_hash =>
      unfold smartStep pixelHashStep at hch ⊢
      cases hh : b.pixelHash with
      | error e =>
          rw [hh] at hch
          dsimp only at hch
          exact absurd rfl hch
      | ok bh =>
          rw [hh] at hch
          dsimp only at hch ⊢
          cases hs : hashScan bh used comp with
          | none =>
              rw [hs] at hch
              dsimp only at hch
              exact absurd rfl hch
          | some r =>
              obtain ⟨cu, ci⟩ := r
              dsimp only
              calc st.bconfidence < 0.95 := h
                _ < 1 := by norm_num
  case pixel_fingerprint =>
      unfold smartStep pixelFpStep at hch ⊢
      cases hh : b.pixelFingerprint with
      | error e =>
          rw [hh] at hch
          dsimp only at hch
          exact absurd rfl hch
      | ok bfp =>
          rw [hh] at hch
          dsimp only at hch ⊢
          cases hs : fpScanSmart bfp used comp with
          | none =>
              rw [hs] at hch
              dsimp only at hch
              exact absurd rfl hch
          | some r =>
              obtain ⟨cu, ci⟩ := r
              dsimp only
              exact h
  all_goals {
    unfold smartStep metadataStep at hch ⊢
    dsimp only at hch ⊢
    set r := try_metadata_matching b _ with hr
    by_cases hsucc : r.success = true
    case neg =>
      rw [if_neg hsucc] at hch
      exact absurd rfl hch
    case pos =>
      rw [if_pos hsucc] at hch ⊢
      cases hl : lookupA lookups _ with
      | none =>
          rw [hl] at hch
          dsimp only at hch
          exact absurd rfl hch
      | some tbl =>
          rw [hl] at hch
          dsimp only at hch ⊢
          cases hl2 : lookupA tbl r.match_key with
          | none =>
              rw [hl2] at hch
              dsimp only at hch
              exact absurd rfl hch
          | some candidates =>
              rw [hl2] at hch
              dsimp only at hch ⊢
              cases hf : firstUnused used candidates with
              | none =>
                  rw [hf] at hch
                  dsimp only at hch
                  exact absurd rfl hch
              | some cand =>
                  obtain ⟨cu, ci, cf⟩ := cand
                  rw [hf] at hch
                  dsimp only at hch ⊢
                  by_cases hlt : st.bconfidence < cf
                  · rw [if_pos hlt]
                    exact hlt
                  · rw [if_neg hlt] at hch
                    exact absurd rfl hch
  }

/-- C1: for each baseline instance the smart reconciler runs the
strategies in the fixed order pixel_hash, pixel_fingerprint, spatial,
acquisition, position, sequence, dimensional: the early-exit loop equals
the plain left fold over an executed prefix P of that list; strategies
beyond P are skipped exactly when the confidence after P is at least
0.95, no strict prefix of P reaches 0.95 (the loop never overruns the
threshold), and along the executed prefix the held candidate changes at a
step only if that step strictly increases the confidence. -/
theorem claim_C1 (comp : List (String × DicomInstance))
    (lookups : List (String × List (String × List (String × DicomInstance × ℚ))))
    (used : List String) (b : DicomInstance) :
    ∃ P suffix : List Strategy,
      smartStrategies = P ++ suffix ∧
      smartLoop comp lookups used b smartStrategies initBest =
        smartFold comp lookups used b P ∧
      (suffix ≠ [] → (0.95 : ℚ) ≤ (smartFold comp lookups used b P).bconfidence) ∧
      (∀ Q, Q <+: P → Q ≠ P → (smartFold comp lookups used b Q).bconfidence < 0.95) ∧
      (∀ Q s, Q ++ [s] <+: P →
        (smartFold comp lookups used b (Q ++ [s])).buid ≠
          (smartFold comp lookups used b Q).buid →
        (smartFold comp lookups used b Q).bconfidence <
          (smartFold comp lookups used b (Q ++ [s])).bconfidence) := by
  obtain ⟨P, suffix, hL, hloop, h3, h4⟩ :=
    smartLoop_spec comp lookups used b smartStrategies initBest (by norm_num [initBest])
  refine ⟨P, suffix, hL, ?_, ?_, ?_, ?_⟩
  · rw [hloop, smartFold_eq]
  · intro hs
    rw [smartFold_eq]
    exact h3 hs
  · intro Q hQ hne
    rw [smartFold_eq]
    exact h4 Q hQ hne
  · intro Q s hpre hne
    have hQpre : Q <+: P := (List.prefix_append Q [s]).trans hpre
    have hQne : Q ≠ P := by
      intro hq
      subst hq
      have := hpre.length_le
      simp at this
    have hlt := h4 Q hQpre hQne
    have hfold : smartFold comp lookups used b (Q ++ [s]) =
        smartStep comp lookups used b s (smartFold comp lookups used b Q) := by
      rw [smartFold_eq, smartFold_eq, List.foldl_append, List.foldl_cons, List.foldl_nil]
    rw [hfold] at hne ⊢
    rw [smartFold_eq] at hne ⊢
    exact smartStep_strict comp lookups used b s _ hlt hne
